import Mathlib

set_option maxRecDepth 1000000

/-!
Shallow embedding of the simulation core of `rusty_snake` (src/main.rs) and
verification of its specification claims.

The embedding translates the game-logic part of the program: the data model
(`Direction`, `FoodType`, `SegmentType`, `Food`, `Segment`, `Snake`, `Game`),
the per-tick step `Game::update`, the food-spawning helpers, and the keyboard
direction handling from `main`.  Rendering, the high-score file I/O and the
name-entry UI have no algorithmic content relevant to the claims and carry no
state read by the step function, so they are omitted from the `Game` record.

Randomness: `Game::generate_food` draws grid positions from a thread RNG in an
unbounded retry loop.  Inside the step function the regenerated food position
is abstracted by an oracle `regen : FoodType → Int × Int` (the loop's result,
when it returns); the loop itself is modelled separately, fuelled, as
`generate_food_fuel` in order to reason about its (non-)termination.

Machine integers: positions are Rust `i32`; all arithmetic performed on them
here (±1 around a 30×20 grid, `+ WIDTH`, `% WIDTH`) is far from the `i32`
range, so they are modelled as `Int`, with Rust's truncating `%` modelled by
`Int.tmod`.  `score`, `frame_count`, `tail_length` are `u32`/`u64`/`usize`
counters that only ever increase by small amounts; they are modelled as `Nat`.

Rust `panic!`/`unwrap` failure is modelled by the `crashed` flag: the only
fallible operation reachable from the step logic on a non-empty body is the
`unwrap` of the first-Tail search in the Water branch, and the embedding sets
`crashed := true` exactly where that `unwrap` would abort the process.
-/

namespace RustySnake

/-- Grid width in cells (`const WIDTH: i32 = 30`). -/
def WIDTH : Int := 30

/-- Grid height in cells (`const HEIGHT: i32 = 20`). -/
def HEIGHT : Int := 20

/-- Ticks between simulation steps (`const SNAKE_SPEED: u64 = 15`). -/
def SNAKE_SPEED : Nat := 15

/-- Movement direction of the snake (`enum Direction`). -/
inductive Direction where
  | Right
  | Left
  | Up
  | Down
deriving DecidableEq, Repr

/-- The three food kinds (`enum FoodType`). -/
inductive FoodType where
  | RustyScrap
  | ShinyMetal
  | Water
deriving DecidableEq, Repr

/-- The four segment roles (`enum SegmentType`). -/
inductive SegmentType where
  | Head
  | Tail
  | EmptyStomach
  | FullStomach
deriving DecidableEq, Repr

/-- A food item on the grid (`struct Food`). -/
structure Food where
  position : Int × Int
  food_type : FoodType
deriving DecidableEq, Repr

/-- One cell-sized unit of the snake's body (`struct Segment`). -/
structure Segment where
  position : Int × Int
  segment_type : SegmentType
deriving DecidableEq, Repr

/-- The snake: its typed body segments, head first, and its direction
(`struct Snake`). -/
structure Snake where
  body : List Segment
  direction : Direction
deriving DecidableEq, Repr

/-- The game state (`struct Game`), restricted to the fields read or written
by the simulation step and the key handlers: `high_scores`, `entering_name`
and `player_name` feed only the leaderboard UI.  The extra `crashed` flag
records whether an `unwrap` panic was reached (see module comment). -/
structure Game where
  snake : Snake
  foods : List Food
  score : Nat
  game_over : Bool
  game_started : Bool
  frame_count : Nat
  wrap_around : Bool
  tail_length : Nat
  crashed : Bool
deriving DecidableEq, Repr

/-- Default segment used by the `getD`-style total lookups; every lookup in
the development is performed at an index proved (or checked) in bounds, where
the default is irrelevant. -/
def dSeg : Segment := { position := (0, 0), segment_type := SegmentType.Head }

/-- Default food for total lookups (same remark as `dSeg`). -/
def dFood : Food := { position := (0, 0), food_type := FoodType.RustyScrap }

/-- Index of the first element of `l` satisfying `p`, head first; models
Rust's `Iterator::position`. -/
def firstIdx {α : Type} (p : α → Bool) : List α → Option Nat
  | [] => none
  | a :: l => if p a then some 0 else (firstIdx p l).map (· + 1)

/-- Insert `a` at index `n` of the list, shifting later elements back; models
`Vec::insert` for `n ≤ length` (the only way the program calls it). -/
def insertAt (a : Segment) : Nat → List Segment → List Segment
  | 0, l => a :: l
  | _ + 1, [] => [a]
  | n + 1, s :: l => s :: insertAt a n l

/-- Replace the `segment_type` of the element at index `n`, if any; models
`self.snake.body[i].segment_type = k`. -/
def setKindAt (k : SegmentType) : Nat → List Segment → List Segment
  | _, [] => []
  | 0, s :: l => { s with segment_type := k } :: l
  | n + 1, s :: l => s :: setKindAt k n l

/-- Apply `f` to `x` a total of `n` times (used for the `for _ in 0..5`
insertion loop of the Water effect and for iterating whole game steps). -/
def applyN {α : Type} (f : α → α) : Nat → α → α
  | 0, x => x
  | n + 1, x => applyN f n (f x)

/-- Boolean test that a segment has kind `K`; the predicate of every
role-directed `Iterator::position` search in the source. -/
def kindIs (K : SegmentType) : Segment → Bool :=
  fun s => decide (s.segment_type = K)

/-- Kinds of the body segments in order, a convenient projection for stating
claims about segment roles. -/
def kindsOf (body : List Segment) : List SegmentType :=
  body.map (fun s => s.segment_type)

/-- Number of segments with kind `Tail`. -/
def tailCount (body : List Segment) : Nat :=
  body.countP (kindIs SegmentType.Tail)

/-- Whether a position lies on the grid, `[0, WIDTH) × [0, HEIGHT)`. -/
def inGrid (p : Int × Int) : Prop :=
  0 ≤ p.1 ∧ p.1 < WIDTH ∧ 0 ≤ p.2 ∧ p.2 < HEIGHT

instance (p : Int × Int) : Decidable (inGrid p) := by
  unfold inGrid; infer_instance

/-- The fresh game state built by `Game::new` (high-score loading omitted;
it touches none of the modelled fields). -/
def Game.new : Game :=
  { snake :=
      { body := [{ position := (WIDTH / 2, HEIGHT / 2), segment_type := SegmentType.Head }]
      , direction := Direction.Right }
  , foods := []
  , score := 0
  , game_over := false
  , game_started := false
  , frame_count := 0
  , wrap_around := true
  , tail_length := 0
  , crashed := false }

/-- Body of `Game::spawn_foods`: clear the food list and push one food of
each kind, at positions delivered by the `generate_food` oracle. -/
def spawnFoods (g : Game) (regen : FoodType → Int × Int) : Game :=
  { g with foods :=
      [ { position := regen FoodType.RustyScrap, food_type := FoodType.RustyScrap }
      , { position := regen FoodType.ShinyMetal, food_type := FoodType.ShinyMetal }
      , { position := regen FoodType.Water, food_type := FoodType.Water } ] }

/-- One cell of movement from `p` in direction `d` (the `match` computing
`new_head_pos` in `Game::update`). -/
def nextPos (p : Int × Int) : Direction → Int × Int
  | Direction.Right => (p.1 + 1, p.2)
  | Direction.Left => (p.1 - 1, p.2)
  | Direction.Up => (p.1, p.2 - 1)
  | Direction.Down => (p.1, p.2 + 1)

/-- Boundary resolution of the candidate head position: with wrap-around the
code computes `((x + WIDTH) % WIDTH, (y + HEIGHT) % HEIGHT)` with Rust's
truncating `%` (`Int.tmod`); without it, leaving the grid ends the game
(`none`). -/
def newHeadPos? (g : Game) : Option (Int × Int) :=
  let c := nextPos (g.snake.body.headD dSeg).position g.snake.direction
  if g.wrap_around then
    some ((c.1 + WIDTH).tmod WIDTH, (c.2 + HEIGHT).tmod HEIGHT)
  else if c.1 < 0 || c.1 ≥ WIDTH || c.2 < 0 || c.2 ≥ HEIGHT then
    none
  else
    some c

/-- The segment-moving loop of `Game::update`: every segment takes the
position previously held by the segment ahead of it and the head takes the
new head position.  The zip truncates at the body's length, exactly as the
`new_positions` vector built from `new_head_pos` and the first `len - 1` old
positions does. -/
def shiftBody (body : List Segment) (np : Int × Int) : List Segment :=
  body.zipWith (fun s p => { s with position := p }) (np :: body.map (fun s => s.position))

/-- Re-assertion `self.snake.body[0].segment_type = SegmentType::Head` after
the shift. -/
def assertHead : List Segment → List Segment
  | [] => []
  | s :: l => { s with segment_type := SegmentType.Head } :: l

/-- The `FoodType::RustyScrap` arm of the food-effect `match`: one point;
while the tail counter is below 3 append a `Tail` at the last segment's
position, otherwise insert an `EmptyStomach` at index 1 at the position of
`body[0]`. -/
def eatRustyScrap (g : Game) : Game :=
  let g := { g with score := g.score + 1 }
  if g.tail_length < 3 then
    let tailSeg : Segment :=
      { position := (g.snake.body.getLastD dSeg).position, segment_type := SegmentType.Tail }
    { g with tail_length := g.tail_length + 1,
             snake := { g.snake with body := g.snake.body ++ [tailSeg] } }
  else
    let stomachSeg : Segment :=
      { position := (g.snake.body.headD dSeg).position, segment_type := SegmentType.EmptyStomach }
    { g with snake := { g.snake with body := insertAt stomachSeg 1 g.snake.body } }

/-- The `FoodType::ShinyMetal` arm: fatal below body length 5; otherwise the
first `EmptyStomach` becomes `FullStomach` for two points, and with no
`EmptyStomach` the game ends.  (`check_high_score` touches only the omitted
name-entry fields.) -/
def eatShinyMetal (g : Game) : Game :=
  if g.snake.body.length < 5 then
    { g with game_over := true }
  else
    match firstIdx (kindIs SegmentType.EmptyStomach) g.snake.body with
    | some i =>
        { g with snake := { g.snake with body := setKindAt SegmentType.FullStomach i g.snake.body },
                 score := g.score + 2 }
    | none => { g with game_over := true }

/-- The `FoodType::Water` arm: the first `FullStomach`, if any, reverts to
`EmptyStomach` for five points and five `EmptyStomach` segments are inserted,
one at a time, at the index of the first `Tail` segment, all at its position;
with no `FullStomach` nothing happens.  The `unwrap` of the Tail search is
modelled by the `crashed` flag. -/
def eatWater (g : Game) : Game :=
  match firstIdx (kindIs SegmentType.FullStomach) g.snake.body with
  | some i =>
      let g := { g with snake := { g.snake with body := setKindAt SegmentType.EmptyStomach i g.snake.body },
                        score := g.score + 5 }
      match firstIdx (kindIs SegmentType.Tail) g.snake.body with
      | some j =>
          let stomachSeg : Segment :=
            { position := (g.snake.body.getD j dSeg).position, segment_type := SegmentType.EmptyStomach }
          { g with snake := { g.snake with body := applyN (insertAt stomachSeg j) 5 g.snake.body } }
      | none => { g with crashed := true }
  | none => g

/-- Tail of `Game::update` from the segment-moving loop on: shift the body to
the new head position, re-assert the head kind, then resolve the eaten food,
if any. -/
def moveAndResolve (g : Game) (np : Int × Int) (ate : Option FoodType) : Game :=
  let g := { g with snake := { g.snake with body := assertHead (shiftBody g.snake.body np) } }
  match ate with
  | none => g
  | some FoodType.RustyScrap => eatRustyScrap g
  | some FoodType.ShinyMetal => eatShinyMetal g
  | some FoodType.Water => eatWater g

/-- Part of `Game::update` from the head projection on: resolve the new head
position, end the game on boundary exit or self-collision, record and
regenerate an eaten food, then move and resolve. -/
def stepAfterSeed (g : Game) (regen : FoodType → Int × Int) : Game :=
  match newHeadPos? g with
  | none => { g with game_over := true }
  | some np =>
    if g.snake.body.any (fun s => decide (s.position = np)) then
      { g with game_over := true }
    else
      match firstIdx (fun f => decide (f.position = np)) g.foods with
      | some i =>
          let ft := (g.foods.getD i dFood).food_type
          moveAndResolve
            { g with foods := g.foods.set i { position := regen ft, food_type := ft } }
            np (some ft)
      | none => moveAndResolve g np none

/-- Body of `Game::update` after the frame gate: seed foods when absent, then
run the rest of the step (`stepAfterSeed`).  The spec calls this logical step
`step()`. -/
def stepCore (g : Game) (regen : FoodType → Int × Int) : Game :=
  stepAfterSeed (if g.foods.isEmpty then spawnFoods g regen else g) regen

/-- `Game::update`: advance the frame counter and, unless the game is over,
not yet started, or off the step cadence, run one simulation step. -/
def Game.update (g : Game) (regen : FoodType → Int × Int) : Game :=
  let g := { g with frame_count := g.frame_count + 1 }
  if g.game_over || !g.game_started || g.frame_count % SNAKE_SPEED != 0 then g
  else stepCore g regen

/-- The food type found at the new head position by `stepAfterSeed g regen`:
the same projection, collision and food-lookup path as the step itself. -/
def consumedAfterSeed (g : Game) : Option FoodType :=
  match newHeadPos? g with
  | none => none
  | some np =>
    if g.snake.body.any (fun s => decide (s.position = np)) then none
    else
      match firstIdx (fun f => decide (f.position = np)) g.foods with
      | some i => some (g.foods.getD i dFood).food_type
      | none => none

/-- The food type consumed by `Game.update g regen`, if any: the same gate
and seeding path as the step itself.  `none` means the step ate nothing (or
did not run). -/
def consumedFood (g : Game) (regen : FoodType → Int × Int) : Option FoodType :=
  let g := { g with frame_count := g.frame_count + 1 }
  if g.game_over || !g.game_started || g.frame_count % SNAKE_SPEED != 0 then none
  else consumedAfterSeed (if g.foods.isEmpty then spawnFoods g regen else g)

/-- The direction directly opposite `d`; the key handler refuses a reversal. -/
def opposite : Direction → Direction
  | Direction.Right => Direction.Left
  | Direction.Left => Direction.Right
  | Direction.Up => Direction.Down
  | Direction.Down => Direction.Up

/-- The arrow-key handling of `main`: ignored after game over; the first
arrow key starts the game, sets the direction and spawns the foods; afterward
a key turns the snake unless it is the direct reversal of the current
direction. -/
def onDirKey (g : Game) (d : Direction) (regen : FoodType → Int × Int) : Game :=
  if g.game_over then g
  else if !g.game_started then
    spawnFoods { g with game_started := true, snake := { g.snake with direction := d } } regen
  else if decide (g.snake.direction ≠ opposite d) then
    { g with snake := { g.snake with direction := d } }
  else g

/-- The retry loop of `Game::generate_food`, made explicit: `rng n` is the
`n`-th sampled position (the code draws it uniformly from the grid), `fuel`
bounds how many iterations we observe.  `none` means the loop has not
returned within `fuel` iterations — the source loop itself has no exit other
than finding a free cell. -/
def generate_food_fuel (g : Game) (food_type : FoodType) (rng : Nat → Int × Int) :
    Nat → Option Food
  | 0 => none
  | fuel + 1 =>
      let position := rng fuel
      if !g.snake.body.any (fun s => decide (s.position = position)) &&
         !g.foods.any (fun f => decide (f.position = position)) then
        some { position := position, food_type := food_type }
      else
        generate_food_fuel g food_type rng fuel

/-- States of the program as driven by `main`'s event loop: the fresh state,
plus everything obtained by update ticks, arrow keys, and the restart on
Return after a game over. -/
inductive Reachable : Game → Prop
  | new : Reachable Game.new
  | update {g : Game} (regen : FoodType → Int × Int) :
      Reachable g → Reachable (Game.update g regen)
  | key {g : Game} (d : Direction) (regen : FoodType → Int × Int) :
      Reachable g → Reachable (onDirKey g d regen)
  | restart {g : Game} : Reachable g → g.game_over = true → Reachable Game.new

/-! ### Helper lemmas about the list operations -/

theorem firstIdx_lt_length {α : Type} (p : α → Bool) :
    ∀ (l : List α) (i : Nat), firstIdx p l = some i → i < l.length := by
  intro l
  induction l with
  | nil => intro i h; simp [firstIdx] at h
  | cons a l ih =>
      intro i h
      by_cases hp : p a
      · simp [firstIdx, hp] at h
        simp only [List.length_cons]
        omega
      · simp [firstIdx, hp] at h
        obtain ⟨j, hj, rfl⟩ := h
        have := ih j hj
        simp only [List.length_cons]
        omega

theorem firstIdx_getD {α : Type} (p : α → Bool) (d : α) :
    ∀ (l : List α) (i : Nat), firstIdx p l = some i → p (l.getD i d) = true := by
  intro l
  induction l with
  | nil => intro i h; simp [firstIdx] at h
  | cons a l ih =>
      intro i h
      by_cases hp : p a
      · simp [firstIdx, hp] at h
        subst h
        simpa using hp
      · simp [firstIdx, hp] at h
        obtain ⟨j, hj, rfl⟩ := h
        simpa using ih j hj

theorem firstIdx_isSome_of_countP {α : Type} (p : α → Bool) :
    ∀ l : List α, 0 < l.countP p → (firstIdx p l).isSome = true := by
  intro l
  induction l with
  | nil => simp
  | cons a l ih =>
      intro h
      by_cases hp : p a
      · simp [firstIdx, hp]
      · rw [List.countP_cons, if_neg hp, Nat.add_zero] at h
        have := ih h
        simp only [firstIdx, if_neg hp]
        cases hfi : firstIdx p l with
        | none => rw [hfi] at this; simp at this
        | some j => rfl

theorem firstIdx_cons_succ {α : Type} (p : α → Bool) (a : α) (l : List α) (i : Nat)
    (hp : p a = false) (h : firstIdx p (a :: l) = some i) :
    ∃ j, i = j + 1 ∧ firstIdx p l = some j := by
  simp [firstIdx, hp] at h
  obtain ⟨j, hj, rfl⟩ := h
  exact ⟨j, rfl, hj⟩

theorem any_of_firstIdx_some {α : Type} (p : α → Bool) :
    ∀ (l : List α) (i : Nat), firstIdx p l = some i → l.any p = true := by
  intro l
  induction l with
  | nil => intro i h; simp [firstIdx] at h
  | cons a l ih =>
      intro i h
      by_cases hp : p a
      · simp [hp]
      · simp [firstIdx, hp] at h
        obtain ⟨j, hj, _⟩ := h
        simp [hp, List.any_cons]
        have := ih j hj
        simpa using this

theorem length_insertAt (a : Segment) :
    ∀ (n : Nat) (l : List Segment), (insertAt a n l).length = l.length + 1 := by
  intro n
  induction n with
  | zero => intro l; simp [insertAt]
  | succ n ih =>
      intro l
      cases l with
      | nil => simp [insertAt]
      | cons s l => simp [insertAt, ih]

theorem insertAt_ne_nil (a : Segment) (n : Nat) (l : List Segment) :
    insertAt a n l ≠ [] := by
  have := length_insertAt a n l
  intro h
  rw [h] at this
  simp at this

theorem countP_insertAt (p : Segment → Bool) (a : Segment) :
    ∀ (n : Nat) (l : List Segment),
      (insertAt a n l).countP p = l.countP p + if p a then 1 else 0 := by
  intro n
  induction n with
  | zero => intro l; simp [insertAt, List.countP_cons]
  | succ n ih =>
      intro l
      cases l with
      | nil => simp [insertAt, List.countP_cons]
      | cons s l =>
          simp only [insertAt, List.countP_cons, ih]
          split <;> split <;> omega

theorem countP_insertAt_false (p : Segment → Bool) (a : Segment) (n : Nat) (l : List Segment)
    (hpa : p a = false) : (insertAt a n l).countP p = l.countP p := by
  rw [countP_insertAt, hpa]
  simp

theorem headD_insertAt (a : Segment) (d : Segment) (n : Nat) (l : List Segment)
    (hn : 1 ≤ n) (hl : l ≠ []) : (insertAt a n l).headD d = l.headD d := by
  cases n with
  | zero => omega
  | succ n =>
      cases l with
      | nil => exact absurd rfl hl
      | cons s l => simp [insertAt]

theorem insertAt_append_len (a : Segment) :
    ∀ (l₁ l₂ : List Segment), insertAt a l₁.length (l₁ ++ l₂) = l₁ ++ a :: l₂ := by
  intro l₁
  induction l₁ with
  | nil => intro l₂; simp [insertAt]
  | cons s l ih => intro l₂; simp [insertAt, ih]

theorem length_setKindAt (k : SegmentType) :
    ∀ (n : Nat) (l : List Segment), (setKindAt k n l).length = l.length := by
  intro n
  induction n with
  | zero => intro l; cases l <;> simp [setKindAt]
  | succ n ih => intro l; cases l <;> simp [setKindAt, ih]

theorem kindsOf_setKindAt (k : SegmentType) :
    ∀ (n : Nat) (l : List Segment), kindsOf (setKindAt k n l) = (kindsOf l).set n k := by
  intro n
  induction n with
  | zero => intro l; cases l <;> simp [setKindAt, kindsOf]
  | succ n ih =>
      intro l
      cases l with
      | nil => simp [setKindAt, kindsOf]
      | cons s l =>
          simp only [setKindAt, kindsOf, List.map_cons, List.set_cons_succ]
          have := ih l
          simp only [kindsOf] at this
          rw [this]

theorem getD_position_setKindAt (k : SegmentType) :
    ∀ (n j : Nat) (l : List Segment),
      ((setKindAt k n l).getD j dSeg).position = (l.getD j dSeg).position := by
  intro n
  induction n with
  | zero =>
      intro j l
      cases l with
      | nil => simp [setKindAt]
      | cons s l => cases j <;> simp [setKindAt]
  | succ n ih =>
      intro j l
      cases l with
      | nil => simp [setKindAt]
      | cons s l =>
          cases j with
          | zero => simp [setKindAt]
          | succ j =>
              simp only [setKindAt, List.getD_cons_succ]
              exact ih j l

theorem headD_position_setKindAt (k : SegmentType) (n : Nat) (l : List Segment) :
    ((setKindAt k n l).headD dSeg).position = (l.headD dSeg).position := by
  cases l with
  | nil => simp [setKindAt]
  | cons s l => cases n <;> simp [setKindAt]

theorem countP_setKindAt (p : Segment → Bool) (k : SegmentType) :
    ∀ (n : Nat) (l : List Segment),
      (∀ s : Segment, p s = p { s with segment_type := s.segment_type }) →
      p { (l.getD n dSeg) with segment_type := k } = p (l.getD n dSeg) →
      (setKindAt k n l).countP p = l.countP p := by
  intro n
  induction n with
  | zero =>
      intro l _ hrepl
      cases l with
      | nil => simp [setKindAt]
      | cons s l =>
          simp only [setKindAt, List.countP_cons]
          simp only [List.getD_cons_zero] at hrepl
          rw [hrepl]
  | succ n ih =>
      intro l htriv hrepl
      cases l with
      | nil => simp [setKindAt]
      | cons s l =>
          simp only [setKindAt, List.countP_cons]
          simp only [List.getD_cons_succ] at hrepl
          rw [ih l htriv hrepl]

theorem applyN_succ_outer {α : Type} (f : α → α) :
    ∀ (n : Nat) (x : α), applyN f (n + 1) x = f (applyN f n x) := by
  intro n
  induction n with
  | zero => intro x; rfl
  | succ n ih =>
      intro x
      calc applyN f (n + 2) x = applyN f (n + 1) (f x) := rfl
        _ = f (applyN f n (f x)) := ih (f x)
        _ = f (applyN f (n + 1) x) := rfl

theorem applyN_insertAt (a : Segment) (j : Nat) :
    ∀ (n : Nat) (l : List Segment), j ≤ l.length →
      applyN (insertAt a j) n l = l.take j ++ List.replicate n a ++ l.drop j := by
  intro n
  induction n with
  | zero => intro l _; simp [applyN]
  | succ n ih =>
      intro l hj
      rw [applyN_succ_outer, ih l hj]
      have htake : (l.take j).length = j := by
        simp only [List.length_take]
        omega
      have h2 : insertAt a j (l.take j ++ (List.replicate n a ++ l.drop j))
          = l.take j ++ a :: (List.replicate n a ++ l.drop j) := by
        have h3 := insertAt_append_len a (l.take j) (List.replicate n a ++ l.drop j)
        rwa [htake] at h3
      calc insertAt a j (l.take j ++ List.replicate n a ++ l.drop j)
          = insertAt a j (l.take j ++ (List.replicate n a ++ l.drop j)) := by
              rw [List.append_assoc]
        _ = l.take j ++ a :: (List.replicate n a ++ l.drop j) := h2
        _ = l.take j ++ List.replicate (n + 1) a ++ l.drop j := by
              simp [List.replicate_succ, List.append_assoc]

theorem getD_append_left {α : Type} (d : α) :
    ∀ (l₁ l₂ : List α) (n : Nat), n < l₁.length → (l₁ ++ l₂).getD n d = l₁.getD n d := by
  intro l₁
  induction l₁ with
  | nil => intro l₂ n h; simp at h
  | cons a l ih =>
      intro l₂ n h
      cases n with
      | zero => simp
      | succ n =>
          simp only [List.cons_append, List.getD_cons_succ]
          exact ih l₂ n (by simpa using h)

theorem getD_append_right {α : Type} (d : α) :
    ∀ (l₁ l₂ : List α) (k : Nat), (l₁ ++ l₂).getD (l₁.length + k) d = l₂.getD k d := by
  intro l₁
  induction l₁ with
  | nil => intro l₂ k; simp
  | cons a l ih =>
      intro l₂ k
      have : l.length + 1 + k = (l.length + k) + 1 := by omega
      simp only [List.cons_append, List.length_cons, this, List.getD_cons_succ]
      exact ih l₂ k

theorem getD_replicate {α : Type} (a d : α) :
    ∀ (n k : Nat), k < n → (List.replicate n a).getD k d = a := by
  intro n
  induction n with
  | zero => intro k h; omega
  | succ n ih =>
      intro k h
      cases k with
      | zero => simp [List.replicate_succ]
      | succ k =>
          simp only [List.replicate_succ, List.getD_cons_succ]
          exact ih k (by omega)

theorem shiftBody_cons (s : Segment) (l : List Segment) (np : Int × Int) :
    shiftBody (s :: l) np = { s with position := np } :: shiftBody l s.position := rfl

theorem kindsOf_zipWith_pos :
    ∀ (l : List Segment) (ps : List (Int × Int)), l.length ≤ ps.length →
      kindsOf (l.zipWith (fun s p => { s with position := p }) ps) = kindsOf l := by
  intro l
  induction l with
  | nil => intro ps _; simp [kindsOf]
  | cons s l ih =>
      intro ps h
      cases ps with
      | nil => simp at h
      | cons p ps =>
          simp only [List.zipWith_cons_cons, kindsOf, List.map_cons]
          have := ih ps (by simpa using h)
          simp only [kindsOf] at this
          rw [this]

theorem kindsOf_shiftBody (l : List Segment) (np : Int × Int) :
    kindsOf (shiftBody l np) = kindsOf l := by
  apply kindsOf_zipWith_pos
  simp

theorem length_shiftBody (l : List Segment) (np : Int × Int) :
    (shiftBody l np).length = l.length := by
  unfold shiftBody
  rw [List.length_zipWith]
  simp

theorem assertHead_cons (s : Segment) (l : List Segment) :
    assertHead (s :: l) = { s with segment_type := SegmentType.Head } :: l := rfl

theorem kindsOf_assertHead (l : List Segment)
    (h : (l.headD dSeg).segment_type = SegmentType.Head) :
    kindsOf (assertHead l) = kindsOf l := by
  cases l with
  | nil => rfl
  | cons s l =>
      simp only [List.headD_cons] at h
      simp [assertHead, kindsOf, h]

theorem countP_kindIs_congr (K : SegmentType) :
    ∀ (l₁ l₂ : List Segment), kindsOf l₁ = kindsOf l₂ →
      l₁.countP (kindIs K) = l₂.countP (kindIs K) := by
  intro l₁
  induction l₁ with
  | nil =>
      intro l₂ h
      cases l₂ with
      | nil => rfl
      | cons s l => simp [kindsOf] at h
  | cons s l ih =>
      intro l₂ h
      cases l₂ with
      | nil => simp [kindsOf] at h
      | cons t m =>
          simp only [kindsOf, List.map_cons, List.cons.injEq] at h
          simp only [List.countP_cons, kindIs, h.1, ih m h.2]

theorem any_kindIs_congr (K : SegmentType) :
    ∀ (l₁ l₂ : List Segment), kindsOf l₁ = kindsOf l₂ →
      l₁.any (kindIs K) = l₂.any (kindIs K) := by
  intro l₁
  induction l₁ with
  | nil =>
      intro l₂ h
      cases l₂ with
      | nil => rfl
      | cons s l => simp [kindsOf] at h
  | cons s l ih =>
      intro l₂ h
      cases l₂ with
      | nil => simp [kindsOf] at h
      | cons t m =>
          simp only [kindsOf, List.map_cons, List.cons.injEq] at h
          simp only [List.any_cons, kindIs, h.1, ih m h.2]

theorem firstIdx_kindIs_congr (K : SegmentType) :
    ∀ (l₁ l₂ : List Segment), kindsOf l₁ = kindsOf l₂ →
      firstIdx (kindIs K) l₁ = firstIdx (kindIs K) l₂ := by
  intro l₁
  induction l₁ with
  | nil =>
      intro l₂ h
      cases l₂ with
      | nil => rfl
      | cons s l => simp [kindsOf] at h
  | cons s l ih =>
      intro l₂ h
      cases l₂ with
      | nil => simp [kindsOf] at h
      | cons t m =>
          simp only [kindsOf, List.map_cons, List.cons.injEq] at h
          simp only [firstIdx, kindIs, h.1, ih m h.2]

theorem headD_append (l₁ l₂ : List Segment) (d : Segment) (h : l₁ ≠ []) :
    (l₁ ++ l₂).headD d = l₁.headD d := by
  cases l₁ with
  | nil => exact absurd rfl h
  | cons s l => rfl

theorem length_applyN_insertAt (a : Segment) (j : Nat) :
    ∀ (n : Nat) (l : List Segment), (applyN (insertAt a j) n l).length = l.length + n := by
  intro n
  induction n with
  | zero => intro l; rfl
  | succ n ih =>
      intro l
      rw [applyN_succ_outer, length_insertAt, ih]
      omega

theorem applyN_insertAt_ne_nil (a : Segment) (j n : Nat) (l : List Segment) (h : l ≠ []) :
    applyN (insertAt a j) n l ≠ [] := by
  intro hc
  have hlen := length_applyN_insertAt a j n l
  rw [hc] at hlen
  simp only [List.length_nil] at hlen
  have hz : l.length = 0 := by omega
  exact h (List.length_eq_zero.mp hz)

theorem countP_applyN_insertAt (p : Segment → Bool) (a : Segment) (j : Nat)
    (hpa : p a = false) :
    ∀ (n : Nat) (l : List Segment), (applyN (insertAt a j) n l).countP p = l.countP p := by
  intro n
  induction n with
  | zero => intro l; rfl
  | succ n ih =>
      intro l
      rw [applyN_succ_outer, countP_insertAt, ih, hpa]
      simp

theorem headD_applyN_insertAt (a : Segment) (j : Nat) (hj : 1 ≤ j) :
    ∀ (n : Nat) (l : List Segment), l ≠ [] →
      (applyN (insertAt a j) n l).headD dSeg = l.headD dSeg := by
  intro n
  induction n with
  | zero => intro l _; rfl
  | succ n ih =>
      intro l hl
      rw [applyN_succ_outer, headD_insertAt a dSeg j _ hj (applyN_insertAt_ne_nil a j n l hl),
          ih l hl]

theorem setKindAt_ne_nil (k : SegmentType) (n : Nat) (l : List Segment) (h : l ≠ []) :
    setKindAt k n l ≠ [] := by
  cases l with
  | nil => exact absurd rfl h
  | cons s l => cases n <;> simp [setKindAt]

/-! ### Wrap-around arithmetic -/

theorem tmod_eq_emod_of_nonneg (a b : Int) (ha : 0 ≤ a) (hb : 0 ≤ b) :
    a.tmod b = a % b := by
  obtain ⟨m, rfl⟩ := Int.eq_ofNat_of_zero_le ha
  obtain ⟨n, rfl⟩ := Int.eq_ofNat_of_zero_le hb
  rfl

theorem wrap30 (c : Int) (h1 : -1 ≤ c) (h2 : c ≤ 30) :
    (c + 30).tmod 30 = c % 30 ∧ 0 ≤ c % 30 ∧ c % 30 < 30 := by
  rw [tmod_eq_emod_of_nonneg _ _ (by omega) (by omega), Int.add_emod_self]
  exact ⟨rfl, Int.emod_nonneg c (by norm_num), Int.emod_lt_of_pos c (by norm_num)⟩

theorem wrap20 (c : Int) (h1 : -1 ≤ c) (h2 : c ≤ 20) :
    (c + 20).tmod 20 = c % 20 ∧ 0 ≤ c % 20 ∧ c % 20 < 20 := by
  rw [tmod_eq_emod_of_nonneg _ _ (by omega) (by omega), Int.add_emod_self]
  exact ⟨rfl, Int.emod_nonneg c (by norm_num), Int.emod_lt_of_pos c (by norm_num)⟩

theorem cand_bounds (p : Int × Int) (d : Direction) (hp : inGrid p) :
    -1 ≤ (nextPos p d).1 ∧ (nextPos p d).1 ≤ WIDTH ∧
    -1 ≤ (nextPos p d).2 ∧ (nextPos p d).2 ≤ HEIGHT := by
  obtain ⟨h1, h2, h3, h4⟩ := hp
  unfold WIDTH HEIGHT at *
  cases d <;> simp only [nextPos] <;> omega

/-- With wrap-around on and the head on the grid, the boundary resolution
always succeeds and lands on the mathematical modulo of the candidate, inside
the grid. -/
theorem newHeadPos_wrap (g : Game) (hw : g.wrap_around = true)
    (hg : inGrid (g.snake.body.headD dSeg).position) :
    newHeadPos? g =
      some ((nextPos (g.snake.body.headD dSeg).position g.snake.direction).1 % WIDTH,
            (nextPos (g.snake.body.headD dSeg).position g.snake.direction).2 % HEIGHT) ∧
    inGrid ((nextPos (g.snake.body.headD dSeg).position g.snake.direction).1 % WIDTH,
            (nextPos (g.snake.body.headD dSeg).position g.snake.direction).2 % HEIGHT) := by
  have hb := cand_bounds (g.snake.body.headD dSeg).position g.snake.direction hg
  unfold WIDTH HEIGHT at hb
  obtain ⟨hb1, hb2, hb3, hb4⟩ := hb
  have h30 := wrap30 (nextPos (g.snake.body.headD dSeg).position g.snake.direction).1 hb1 hb2
  have h20 := wrap20 (nextPos (g.snake.body.headD dSeg).position g.snake.direction).2 hb3 hb4
  constructor
  · unfold newHeadPos?
    rw [hw]
    simp only [if_true]
    unfold WIDTH HEIGHT
    rw [h30.1, h20.1]
  · exact ⟨h30.2.1, h30.2.2, h20.2.1, h20.2.2⟩

/-! ### The reachable-state invariant -/

/-- Whether the body contains any stomach-capacity segment. -/
def stomachPresent (body : List Segment) : Prop :=
  body.any (kindIs SegmentType.EmptyStomach) = true ∨
  body.any (kindIs SegmentType.FullStomach) = true

/-- The state invariant maintained by every event of the program: the body is
non-empty and headed by a `Head` segment whose position is on the grid, the
`tail_length` counter agrees with the number of `Tail` segments and is capped
at 3, stomach segments exist only once the tail cap is reached, wrap-around
stays on (nothing in the program ever clears it), and no `unwrap` panic has
been reached. -/
def Inv (g : Game) : Prop :=
  g.snake.body ≠ [] ∧
  (g.snake.body.headD dSeg).segment_type = SegmentType.Head ∧
  g.tail_length = tailCount g.snake.body ∧
  g.tail_length ≤ 3 ∧
  (stomachPresent g.snake.body → tailCount g.snake.body = 3) ∧
  g.wrap_around = true ∧
  inGrid (g.snake.body.headD dSeg).position ∧
  g.crashed = false

theorem body_after_move (b : List Segment) (np : Int × Int) (hne : b ≠ [])
    (hh : (b.headD dSeg).segment_type = SegmentType.Head) :
    assertHead (shiftBody b np) ≠ [] ∧
    (assertHead (shiftBody b np)).headD dSeg =
      { position := np, segment_type := SegmentType.Head } ∧
    kindsOf (assertHead (shiftBody b np)) = kindsOf b := by
  cases b with
  | nil => exact absurd rfl hne
  | cons s l =>
      rw [shiftBody_cons, assertHead_cons]
      refine ⟨by simp, by simp, ?_⟩
      simp only [kindsOf, List.map_cons]
      have hk := kindsOf_shiftBody l s.position
      simp only [kindsOf] at hk
      rw [hk]
      simp only [List.headD_cons] at hh
      rw [hh]

theorem firstIdx_kind_pos (K : SegmentType) (b : List Segment) (i : Nat)
    (hne : b ≠ []) (hh : (b.headD dSeg).segment_type = SegmentType.Head)
    (hK : K ≠ SegmentType.Head)
    (hfi : firstIdx (kindIs K) b = some i) : ∃ j, i = j + 1 := by
  cases b with
  | nil => exact absurd rfl hne
  | cons s l =>
      have hs : kindIs K s = false := by
        simp only [List.headD_cons] at hh
        simp only [kindIs, hh, decide_eq_false_iff_not]
        exact fun hc => hK hc.symm
      obtain ⟨j, hj, _⟩ := firstIdx_cons_succ (kindIs K) s l i hs hfi
      exact ⟨j, hj⟩

theorem headD_setKindAt_succ (k : SegmentType) (j : Nat) (b : List Segment) :
    (setKindAt k (j + 1) b).headD dSeg = b.headD dSeg := by
  cases b <;> simp [setKindAt]

theorem inv_eatRustyScrap (g : Game) (h : Inv g) : Inv (eatRustyScrap g) := by
  obtain ⟨hne, hh, hlink, hle, hstom, hw, hgrid, hcr⟩ := h
  unfold eatRustyScrap
  by_cases hlt : g.tail_length < 3
  · simp only [hlt, if_true]
    refine ⟨by simp, ?_, ?_, by show g.tail_length + 1 ≤ 3; omega, ?_, hw, ?_, hcr⟩
    · show ((g.snake.body ++ [_]).headD dSeg).segment_type = SegmentType.Head
      rw [headD_append _ _ _ hne]
      exact hh
    · show g.tail_length + 1 = tailCount (g.snake.body ++ [_])
      unfold tailCount
      rw [List.countP_append]
      have h1 : List.countP (kindIs SegmentType.Tail)
          [{ position := (g.snake.body.getLastD dSeg).position
           , segment_type := SegmentType.Tail }] = 1 := by
        simp [kindIs, List.countP_cons]
      rw [h1]
      unfold tailCount at hlink
      omega
    · intro hs
      exfalso
      have hsb : stomachPresent g.snake.body := by
        rcases hs with hs | hs
        · left
          rw [List.any_append] at hs
          simpa [kindIs] using hs
        · right
          rw [List.any_append] at hs
          simpa [kindIs] using hs
      have := hstom hsb
      omega
    · show inGrid ((g.snake.body ++ [_]).headD dSeg).position
      rw [headD_append _ _ _ hne]
      exact hgrid
  · simp only [hlt, if_false]
    refine ⟨insertAt_ne_nil _ _ _, ?_, ?_, hle, ?_, hw, ?_, hcr⟩
    · show ((insertAt _ 1 g.snake.body).headD dSeg).segment_type = SegmentType.Head
      rw [headD_insertAt _ dSeg 1 _ (by omega) hne]
      exact hh
    · show g.tail_length = tailCount (insertAt _ 1 g.snake.body)
      unfold tailCount
      rw [countP_insertAt_false _ _ _ _ (by simp [kindIs])]
      exact hlink
    · intro _
      show tailCount (insertAt _ 1 g.snake.body) = 3
      unfold tailCount
      rw [countP_insertAt_false _ _ _ _ (by simp [kindIs])]
      unfold tailCount at hlink
      omega
    · show inGrid ((insertAt _ 1 g.snake.body).headD dSeg).position
      rw [headD_insertAt _ dSeg 1 _ (by omega) hne]
      exact hgrid

theorem inv_eatShinyMetal (g : Game) (h : Inv g) : Inv (eatShinyMetal g) := by
  obtain ⟨hne, hh, hlink, hle, hstom, hw, hgrid, hcr⟩ := h
  unfold eatShinyMetal
  by_cases hlen : g.snake.body.length < 5
  · simp only [hlen, if_true]
    exact ⟨hne, hh, hlink, hle, hstom, hw, hgrid, hcr⟩
  · simp only [hlen, if_false]
    cases hfi : firstIdx (kindIs SegmentType.EmptyStomach) g.snake.body with
    | none => exact ⟨hne, hh, hlink, hle, hstom, hw, hgrid, hcr⟩
    | some i =>
        obtain ⟨j, rfl⟩ := firstIdx_kind_pos SegmentType.EmptyStomach g.snake.body i hne hh
          (by simp) hfi
        have hki : (g.snake.body.getD (j + 1) dSeg).segment_type = SegmentType.EmptyStomach := by
          have := firstIdx_getD (kindIs SegmentType.EmptyStomach) dSeg g.snake.body (j + 1) hfi
          simpa [kindIs] using this
        have hcount : (setKindAt SegmentType.FullStomach (j + 1) g.snake.body).countP
            (kindIs SegmentType.Tail) = g.snake.body.countP (kindIs SegmentType.Tail) := by
          apply countP_setKindAt _ _ _ _ (fun s => rfl)
          simp only [kindIs, hki]
          rfl
        have hstomB : stomachPresent g.snake.body :=
          Or.inl (any_of_firstIdx_some _ _ _ hfi)
        refine ⟨setKindAt_ne_nil _ _ _ hne, ?_, ?_, hle, ?_, hw, ?_, hcr⟩
        · show ((setKindAt SegmentType.FullStomach (j + 1) g.snake.body).headD dSeg).segment_type
            = SegmentType.Head
          rw [headD_setKindAt_succ]
          exact hh
        · show g.tail_length = tailCount (setKindAt SegmentType.FullStomach (j + 1) g.snake.body)
          unfold tailCount
          rw [hcount]
          exact hlink
        · intro _
          show tailCount (setKindAt SegmentType.FullStomach (j + 1) g.snake.body) = 3
          unfold tailCount
          rw [hcount]
          exact hstom hstomB
        · show inGrid
            (((setKindAt SegmentType.FullStomach (j + 1) g.snake.body).headD dSeg).position)
          rw [headD_setKindAt_succ]
          exact hgrid

theorem inv_eatWater (g : Game) (h : Inv g) : Inv (eatWater g) := by
  obtain ⟨hne, hh, hlink, hle, hstom, hw, hgrid, hcr⟩ := h
  unfold eatWater
  cases hfi : firstIdx (kindIs SegmentType.FullStomach) g.snake.body with
  | none => exact ⟨hne, hh, hlink, hle, hstom, hw, hgrid, hcr⟩
  | some i =>
      obtain ⟨i0, rfl⟩ := firstIdx_kind_pos SegmentType.FullStomach g.snake.body i hne hh
        (by simp) hfi
      have hki : (g.snake.body.getD (i0 + 1) dSeg).segment_type = SegmentType.FullStomach := by
        have := firstIdx_getD (kindIs SegmentType.FullStomach) dSeg g.snake.body (i0 + 1) hfi
        simpa [kindIs] using this
      have hcount : (setKindAt SegmentType.EmptyStomach (i0 + 1) g.snake.body).countP
          (kindIs SegmentType.Tail) = g.snake.body.countP (kindIs SegmentType.Tail) := by
        apply countP_setKindAt _ _ _ _ (fun s => rfl)
        simp only [kindIs, hki]
        rfl
      have hstomB : stomachPresent g.snake.body :=
        Or.inr (any_of_firstIdx_some _ _ _ hfi)
      have htc : tailCount g.snake.body = 3 := hstom hstomB
      have hne2 : setKindAt SegmentType.EmptyStomach (i0 + 1) g.snake.body ≠ [] :=
        setKindAt_ne_nil _ _ _ hne
      have hh2 : ((setKindAt SegmentType.EmptyStomach (i0 + 1) g.snake.body).headD dSeg).segment_type
          = SegmentType.Head := by
        rw [headD_setKindAt_succ]
        exact hh
      have hsome : ∃ j, firstIdx (kindIs SegmentType.Tail)
          (setKindAt SegmentType.EmptyStomach (i0 + 1) g.snake.body) = some j := by
        have hpos : 0 < (setKindAt SegmentType.EmptyStomach (i0 + 1) g.snake.body).countP
            (kindIs SegmentType.Tail) := by
          rw [hcount]
          unfold tailCount at htc
          omega
        have := firstIdx_isSome_of_countP (kindIs SegmentType.Tail) _ hpos
        exact Option.isSome_iff_exists.mp this
      obtain ⟨j, hj⟩ := hsome
      obtain ⟨j0, rfl⟩ := firstIdx_kind_pos SegmentType.Tail _ j hne2 hh2 (by simp) hj
      simp only [hj]
      have hins : ∀ p : Segment → Bool, ∀ a : Segment, p a = false →
          (applyN (insertAt a (j0 + 1)) 5
            (setKindAt SegmentType.EmptyStomach (i0 + 1) g.snake.body)).countP p
          = (setKindAt SegmentType.EmptyStomach (i0 + 1) g.snake.body).countP p :=
        fun p a hpa => countP_applyN_insertAt p a (j0 + 1) hpa 5 _
      refine ⟨applyN_insertAt_ne_nil _ _ _ _ hne2, ?_, ?_, hle, ?_, hw, ?_, hcr⟩
      · rw [headD_applyN_insertAt _ _ (by omega) _ _ hne2]
        exact hh2
      · show g.tail_length = tailCount (applyN _ 5 _)
        unfold tailCount
        rw [hins _ _ (by simp [kindIs]), hcount]
        exact hlink
      · intro _
        show tailCount (applyN _ 5 _) = 3
        unfold tailCount
        rw [hins _ _ (by simp [kindIs]), hcount]
        unfold tailCount at htc
        exact htc
      · rw [headD_applyN_insertAt _ _ (by omega) _ _ hne2, headD_setKindAt_succ]
        exact hgrid

theorem inv_shifted (g : Game) (np : Int × Int) (h : Inv g) (hnp : inGrid np) :
    Inv { g with snake := { g.snake with body := assertHead (shiftBody g.snake.body np) } } := by
  obtain ⟨hne, hh, hlink, hle, hstom, hw, hgrid, hcr⟩ := h
  obtain ⟨hb1, hb2, hb3⟩ := body_after_move g.snake.body np hne hh
  refine ⟨hb1, ?_, ?_, hle, ?_, hw, ?_, hcr⟩
  · show ((assertHead (shiftBody g.snake.body np)).headD dSeg).segment_type = SegmentType.Head
    rw [hb2]
  · show g.tail_length = tailCount (assertHead (shiftBody g.snake.body np))
    unfold tailCount
    rw [countP_kindIs_congr _ _ _ hb3]
    exact hlink
  · intro hs
    show tailCount (assertHead (shiftBody g.snake.body np)) = 3
    unfold tailCount
    rw [countP_kindIs_congr _ _ _ hb3]
    apply hstom
    unfold stomachPresent at hs ⊢
    rcases hs with hs | hs
    · left
      rw [← any_kindIs_congr _ _ _ hb3]
      exact hs
    · right
      rw [← any_kindIs_congr _ _ _ hb3]
      exact hs
  · show inGrid ((assertHead (shiftBody g.snake.body np)).headD dSeg).position
    rw [hb2]
    exact hnp

theorem inv_moveAndResolve (g : Game) (np : Int × Int) (ate : Option FoodType)
    (h : Inv g) (hnp : inGrid np) : Inv (moveAndResolve g np ate) := by
  have h2 := inv_shifted g np h hnp
  unfold moveAndResolve
  cases ate with
  | none => exact h2
  | some ft =>
      cases ft with
      | RustyScrap => exact inv_eatRustyScrap _ h2
      | ShinyMetal => exact inv_eatShinyMetal _ h2
      | Water => exact inv_eatWater _ h2

theorem inv_stepAfterSeed (g : Game) (regen : FoodType → Int × Int) (h : Inv g) :
    Inv (stepAfterSeed g regen) := by
  obtain ⟨hnp, hgrid2⟩ := newHeadPos_wrap g h.2.2.2.2.2.1 h.2.2.2.2.2.2.1
  unfold stepAfterSeed
  split
  · next heq => rw [hnp] at heq; cases heq
  · next np heq =>
      rw [hnp] at heq
      injection heq with heq2
      subst heq2
      split
      · exact h
      · split
        · exact inv_moveAndResolve _ _ _ h hgrid2
        · exact inv_moveAndResolve _ _ _ h hgrid2

theorem inv_stepCore (g : Game) (regen : FoodType → Int × Int) (h : Inv g) :
    Inv (stepCore g regen) := by
  unfold stepCore
  split
  · exact inv_stepAfterSeed _ _ h
  · exact inv_stepAfterSeed _ _ h

theorem inv_update (g : Game) (regen : FoodType → Int × Int) (h : Inv g) :
    Inv (Game.update g regen) := by
  unfold Game.update
  dsimp only
  split
  · exact h
  · exact inv_stepCore _ _ h

theorem inv_onDirKey (g : Game) (d : Direction) (regen : FoodType → Int × Int) (h : Inv g) :
    Inv (onDirKey g d regen) := by
  unfold onDirKey
  split
  · exact h
  · split
    · exact h
    · split
      · exact h
      · exact h

theorem inv_new : Inv Game.new := by
  refine ⟨by simp [Game.new], by simp [Game.new, dSeg], by simp [Game.new, tailCount, kindIs],
    by simp [Game.new], ?_, by simp [Game.new], by simp [Game.new, dSeg, inGrid, WIDTH, HEIGHT],
    by simp [Game.new]⟩
  intro hs
  exfalso
  unfold stomachPresent Game.new at hs
  rcases hs with hs | hs <;> simp [kindIs] at hs

theorem inv_reachable (g : Game) (h : Reachable g) : Inv g := by
  induction h with
  | new => exact inv_new
  | update regen _ ih => exact inv_update _ regen ih
  | key d regen _ ih => exact inv_onDirKey _ d regen ih
  | restart _ _ => exact inv_new

/-! ### Reduction lemmas for the step on known branch conditions -/

theorem length_assertHead (l : List Segment) : (assertHead l).length = l.length := by
  cases l <;> simp [assertHead]

theorem stepCore_of_foods_nonempty (g : Game) (regen : FoodType → Int × Int)
    (hf : g.foods.isEmpty = false) : stepCore g regen = stepAfterSeed g regen := by
  unfold stepCore
  rw [hf]
  simp

/-- When the projected head lands on food item `i` with no collision, the step
is the move-and-resolve of that food on the state with food `i` regenerated. -/
theorem stepAfterSeed_eats (g : Game) (regen : FoodType → Int × Int) (np : Int × Int) (i : Nat)
    (hnp : newHeadPos? g = some np)
    (hcol : g.snake.body.any (fun s => decide (s.position = np)) = false)
    (hidx : firstIdx (fun f => decide (f.position = np)) g.foods = some i) :
    stepAfterSeed g regen =
      moveAndResolve
        { g with foods := g.foods.set i { position := regen ((g.foods.getD i dFood).food_type), food_type := (g.foods.getD i dFood).food_type } }
        np (some ((g.foods.getD i dFood).food_type)) := by
  unfold stepAfterSeed
  rw [hnp]
  dsimp only
  rw [hcol]
  simp only [Bool.false_eq_true, if_false]
  rw [hidx]

/-- When the projected head lands on no food and hits no segment, the step is
the plain move. -/
theorem stepAfterSeed_noFood (g : Game) (regen : FoodType → Int × Int) (np : Int × Int)
    (hnp : newHeadPos? g = some np)
    (hcol : g.snake.body.any (fun s => decide (s.position = np)) = false)
    (hidx : firstIdx (fun f => decide (f.position = np)) g.foods = none) :
    stepAfterSeed g regen = moveAndResolve g np none := by
  unfold stepAfterSeed
  rw [hnp]
  dsimp only
  rw [hcol]
  simp only [Bool.false_eq_true, if_false]
  rw [hidx]

/-- When the projected head hits a segment, the step only ends the game. -/
theorem stepAfterSeed_collision (g : Game) (regen : FoodType → Int × Int) (np : Int × Int)
    (hnp : newHeadPos? g = some np)
    (hcol : g.snake.body.any (fun s => decide (s.position = np)) = true) :
    stepAfterSeed g regen = { g with game_over := true } := by
  unfold stepAfterSeed
  rw [hnp]
  dsimp only
  rw [hcol]
  simp

/-! ### A concrete run of the program, used as witness and counterexample
material: the snake starts at (15, 10) heading right, eats four RustyScrap
placed along its path (steps 15, 30, 45, 60), then a ShinyMetal (step 75). -/

/-- Food positions used at game start. -/
def oracleStart : FoodType → Int × Int
  | FoodType.RustyScrap => (16, 10)
  | FoodType.ShinyMetal => (20, 10)
  | FoodType.Water => (21, 10)

/-- Replacement position for the RustyScrap eaten at step 15. -/
def oracle1 : FoodType → Int × Int
  | FoodType.RustyScrap => (17, 10)
  | _ => (0, 0)

/-- Replacement position for the RustyScrap eaten at step 30. -/
def oracle2 : FoodType → Int × Int
  | FoodType.RustyScrap => (18, 10)
  | _ => (0, 0)

/-- Replacement position for the RustyScrap eaten at step 45. -/
def oracle3 : FoodType → Int × Int
  | FoodType.RustyScrap => (19, 10)
  | _ => (0, 0)

/-- Replacement position for the RustyScrap eaten at step 60. -/
def oracle4 : FoodType → Int × Int
  | FoodType.RustyScrap => (2, 2)
  | _ => (0, 0)

/-- Replacement position for the ShinyMetal eaten at step 75. -/
def oracle5 : FoodType → Int × Int
  | FoodType.ShinyMetal => (3, 3)
  | _ => (0, 0)

/-- The state after the first arrow key (Right): started, foods spawned. -/
def gStart : Game := onDirKey Game.new Direction.Right oracleStart

/-- After 15 update ticks: the snake has eaten one RustyScrap at (16, 10) and
grown its first Tail segment — at the same position as the head. -/
def g16 : Game := applyN (fun s => Game.update s oracle1) 15 gStart

/-- After 30 update ticks: two RustyScrap eaten. -/
def g30 : Game := applyN (fun s => Game.update s oracle2) 15 g16

/-- After 45 update ticks: three RustyScrap eaten, tail cap reached. -/
def g45 : Game := applyN (fun s => Game.update s oracle3) 15 g30

/-- After 59 update ticks: one tick before the fourth RustyScrap is eaten.
The head is at (18, 10) and the food at (19, 10). -/
def g59 : Game := applyN (fun s => Game.update s oracle4) 14 g45

/-- After 60 update ticks: the fourth RustyScrap is eaten with the tail cap
reached, inserting an EmptyStomach segment at index 1. -/
def g60 : Game := Game.update g59 oracle4

/-- After 75 update ticks: a ShinyMetal is eaten, so the body now carries a
FullStomach segment. -/
def g75 : Game := applyN (fun s => Game.update s oracle5) 15 g60

theorem reach_applyN (f : FoodType → Int × Int) :
    ∀ (n : Nat) (g : Game), Reachable g →
      Reachable (applyN (fun s => Game.update s f) n g) := by
  intro n
  induction n with
  | zero => intro g h; exact h
  | succ n ih => intro g h; exact ih _ (Reachable.update f h)

theorem reach_gStart : Reachable gStart :=
  Reachable.key Direction.Right oracleStart Reachable.new

theorem reach_g16 : Reachable g16 := reach_applyN oracle1 15 _ reach_gStart

theorem reach_g30 : Reachable g30 := reach_applyN oracle2 15 _ reach_g16

theorem reach_g45 : Reachable g45 := reach_applyN oracle3 15 _ reach_g30

theorem reach_g59 : Reachable g59 := reach_applyN oracle4 14 _ reach_g45

theorem reach_g60 : Reachable g60 := Reachable.update oracle4 reach_g59

theorem reach_g75 : Reachable g75 := reach_applyN oracle5 15 _ reach_g60

/-- Whether two distinct indices of the body share one position. -/
def dupPos : List Segment → Bool
  | [] => false
  | s :: l => l.any (fun t => decide (t.position = s.position)) || dupPos l

theorem firstIdx_eq_none_of_all {α : Type} (p : α → Bool) :
    ∀ l : List α, (∀ a ∈ l, p a = false) → firstIdx p l = none := by
  intro l
  induction l with
  | nil => intro _; rfl
  | cons a l ih =>
      intro h
      have ha := h a (by simp)
      simp only [firstIdx, ha, Bool.false_eq_true, if_false]
      rw [ih (fun b hb => h b (by simp [hb]))]
      rfl

theorem firstIdx_setKindAt_other (K k : SegmentType) :
    ∀ (n : Nat) (l : List Segment), decide (k = K) = false →
      decide ((l.getD n dSeg).segment_type = K) = false →
      firstIdx (kindIs K) (setKindAt k n l) = firstIdx (kindIs K) l := by
  intro n
  induction n with
  | zero =>
      intro l hk hold
      cases l with
      | nil => rfl
      | cons s l =>
          simp only [List.getD_cons_zero] at hold
          simp only [setKindAt, firstIdx, kindIs, hk, hold, Bool.false_eq_true, if_false]
  | succ n ih =>
      intro l hk hold
      cases l with
      | nil => rfl
      | cons s l =>
          simp only [List.getD_cons_succ] at hold
          simp only [setKindAt, firstIdx]
          rw [ih l hk hold]

theorem getD_drop_zero {α : Type} (d : α) :
    ∀ (j : Nat) (l : List α), (l.drop j).getD 0 d = l.getD j d := by
  intro j
  induction j with
  | zero => intro l; simp
  | succ j ih =>
      intro l
      cases l with
      | nil => simp
      | cons a l => simp only [List.drop_succ_cons, List.getD_cons_succ, ih l]

theorem headD_after_move (b : List Segment) (np : Int × Int) (hne : b ≠ []) :
    assertHead (shiftBody b np) ≠ [] ∧
    (assertHead (shiftBody b np)).headD dSeg =
      { position := np, segment_type := SegmentType.Head } := by
  cases b with
  | nil => exact absurd rfl hne
  | cons s l =>
      rw [shiftBody_cons, assertHead_cons]
      exact ⟨by simp, by simp⟩

/-- After the body shift, the head position of the resolved state is the new
head position, whatever food effect runs. -/
theorem headD_position_moveAndResolve (g : Game) (np : Int × Int) (ate : Option FoodType)
    (hne : g.snake.body ≠ []) :
    ((moveAndResolve g np ate).snake.body.headD dSeg).position = np := by
  obtain ⟨hBne, hBhead⟩ := headD_after_move g.snake.body np hne
  have hBkind : ((assertHead (shiftBody g.snake.body np)).headD dSeg).segment_type
      = SegmentType.Head := by rw [hBhead]
  unfold moveAndResolve
  cases ate with
  | none => rw [hBhead]
  | some ft =>
      cases ft with
      | RustyScrap =>
          unfold eatRustyScrap
          dsimp only
          split
          · show (((assertHead (shiftBody g.snake.body np)) ++ [_]).headD dSeg).position = np
            rw [headD_append _ _ _ hBne, hBhead]
          · show ((insertAt _ 1 (assertHead (shiftBody g.snake.body np))).headD dSeg).position = np
            rw [headD_insertAt _ dSeg 1 _ (by omega) hBne, hBhead]
      | ShinyMetal =>
          unfold eatShinyMetal
          dsimp only
          split
          · rw [hBhead]
          · split
            · next i _ =>
                show ((setKindAt SegmentType.FullStomach i
                    (assertHead (shiftBody g.snake.body np))).headD dSeg).position = np
                rw [headD_position_setKindAt, hBhead]
            · rw [hBhead]
      | Water =>
          unfold eatWater
          dsimp only
          split
          · next i hfi =>
              have hne2 : setKindAt SegmentType.EmptyStomach i
                  (assertHead (shiftBody g.snake.body np)) ≠ [] := setKindAt_ne_nil _ _ _ hBne
              split
              · next j hj =>
                  obtain ⟨i0, hi0⟩ := firstIdx_kind_pos SegmentType.FullStomach _ i hBne hBkind
                    (by simp) hfi
                  subst hi0
                  have hh2 : ((setKindAt SegmentType.EmptyStomach (i0 + 1)
                      (assertHead (shiftBody g.snake.body np))).headD dSeg).segment_type
                      = SegmentType.Head := by
                    rw [headD_setKindAt_succ, hBkind]
                  obtain ⟨j0, hj0⟩ := firstIdx_kind_pos SegmentType.Tail _ j hne2 hh2
                    (by simp) hj
                  subst hj0
                  rw [headD_applyN_insertAt _ _ (by omega) _ _ hne2, headD_setKindAt_succ, hBhead]
              · show ((setKindAt SegmentType.EmptyStomach i
                    (assertHead (shiftBody g.snake.body np))).headD dSeg).position = np
                rw [headD_position_setKindAt, hBhead]
          · rw [hBhead]

theorem onDirKey_body (g : Game) (d : Direction) (regen : FoodType → Int × Int) :
    (onDirKey g d regen).snake.body = g.snake.body := by
  unfold onDirKey
  split
  · rfl
  · split
    · rfl
    · split
      · rfl
      · rfl

/-! ### The claims -/

/-- C6, counterexample: the spec claims no reachable state has duplicate
positions among body segments.  The reachable state `g16` — obtained from a
fresh game by pressing Right and running 15 update ticks with the RustyScrap
at (16, 10) — has body `[Head at (16,10), Tail at (16,10)]`: the appended
Tail takes the position of the last segment, so the two segments coincide,
and the game continues (no game over, no crash). -/
theorem C6_cex_duplicate_positions :
    Reachable g16 ∧
    (dupPos g16.snake.body = true ∧ g16.game_over = false ∧ g16.crashed = false) :=
  ⟨reach_g16, by decide⟩

/-- C6 (amended): what the code actually enforces is the projected-head
check: whenever the candidate head position equals an existing segment's
position, the step ends the session (game over) and mutates nothing else;
duplicate positions among segments other than the projected head do occur in
reachable states, introduced by growth insertions (see the counterexample). -/
theorem C6_selfCollision_terminates (g : Game) (regen : FoodType → Int × Int) (np : Int × Int)
    (hf : g.foods.isEmpty = false)
    (hnp : newHeadPos? g = some np)
    (hcol : g.snake.body.any (fun s => decide (s.position = np)) = true) :
    stepCore g regen = { g with game_over := true } := by
  rw [stepCore_of_foods_nonempty g regen hf]
  exact stepAfterSeed_collision g regen np hnp hcol

/-- Witness for C6 (amended): a snake at (5,5) heading right into its own
tail segment at (6,5) gets a game over with no other mutation. -/
theorem C6_selfCollision_terminates_witness :
    (let g : Game :=
      { snake := { body := [{ position := ((5 : Int), (5 : Int)), segment_type := SegmentType.Head },
                            { position := ((6 : Int), (5 : Int)), segment_type := SegmentType.Tail }]
                 , direction := Direction.Right }
      , foods := [{ position := ((0 : Int), (0 : Int)), food_type := FoodType.RustyScrap }]
      , score := 0, game_over := false, game_started := true, frame_count := 14
      , wrap_around := true, tail_length := 1, crashed := false }
    stepCore g (fun _ => (0, 0)) = { g with game_over := true }) := by
  exact C6_selfCollision_terminates _ _ ((6 : Int), (5 : Int)) (by decide) (by decide) (by decide)

/-- C7: in every reachable state the body is non-empty with a `Head`-kind
first segment, and this persists through the logical step (`stepCore`, every
outcome path) and through the gated `Game::update`. -/
theorem C7_head_first (g : Game) (regen : FoodType → Int × Int) (h : Reachable g) :
    g.snake.body ≠ [] ∧
    (g.snake.body.headD dSeg).segment_type = SegmentType.Head ∧
    (stepCore g regen).snake.body ≠ [] ∧
    ((stepCore g regen).snake.body.headD dSeg).segment_type = SegmentType.Head ∧
    (Game.update g regen).snake.body ≠ [] ∧
    ((Game.update g regen).snake.body.headD dSeg).segment_type = SegmentType.Head := by
  have hi := inv_reachable g h
  have hs := inv_stepCore g regen hi
  have hu := inv_update g regen hi
  exact ⟨hi.1, hi.2.1, hs.1, hs.2.1, hu.1, hu.2.1⟩

/-- Witness for C7 at the fresh game state. -/
theorem C7_head_first_witness :
    Game.new.snake.body ≠ [] ∧
    (Game.new.snake.body.headD dSeg).segment_type = SegmentType.Head ∧
    (stepCore Game.new (fun _ => (0, 0))).snake.body ≠ [] ∧
    ((stepCore Game.new (fun _ => (0, 0))).snake.body.headD dSeg).segment_type
      = SegmentType.Head ∧
    (Game.update Game.new (fun _ => (0, 0))).snake.body ≠ [] ∧
    ((Game.update Game.new (fun _ => (0, 0))).snake.body.headD dSeg).segment_type
      = SegmentType.Head :=
  C7_head_first Game.new (fun _ => (0, 0)) Reachable.new

/-- C8: with wrap-around enabled and the head on the grid, the boundary
resolution reduces the candidate head position by true mathematical modulo
(`Int.emod`, written `%`, non-negative for positive moduli) — the code's
`(c + WIDTH) % WIDTH` with truncating `%` agrees with it on every candidate
that can occur — and the head after the step lies in `[0,WIDTH) × [0,HEIGHT)`
on every outcome path. -/
theorem C8_wrap_modulo (g : Game) (regen : FoodType → Int × Int)
    (hw : g.wrap_around = true)
    (hne : g.snake.body ≠ [])
    (hgrid : inGrid (g.snake.body.headD dSeg).position) :
    newHeadPos? g =
      some ((nextPos (g.snake.body.headD dSeg).position g.snake.direction).1 % WIDTH,
            (nextPos (g.snake.body.headD dSeg).position g.snake.direction).2 % HEIGHT) ∧
    inGrid ((nextPos (g.snake.body.headD dSeg).position g.snake.direction).1 % WIDTH,
            (nextPos (g.snake.body.headD dSeg).position g.snake.direction).2 % HEIGHT) ∧
    inGrid (((stepCore g regen).snake.body.headD dSeg).position) := by
  obtain ⟨hnp, hgrid2⟩ := newHeadPos_wrap g hw hgrid
  refine ⟨hnp, hgrid2, ?_⟩
  unfold stepCore
  have hbody : ∀ G : Game, G.snake = g.snake → G.wrap_around = g.wrap_around →
      inGrid (((stepAfterSeed G regen).snake.body.headD dSeg).position) := by
    intro G hGs hGw
    have hGnp : newHeadPos? G = newHeadPos? g := by unfold newHeadPos?; rw [hGs, hGw]
    unfold stepAfterSeed
    split
    · next heq => rw [hGnp, hnp] at heq; cases heq
    · next np heq =>
        rw [hGnp, hnp] at heq
        injection heq with heq2
        subst heq2
        split
        · rw [hGs]; exact hgrid
        · split
          · rw [headD_position_moveAndResolve _ _ _ (by rw [hGs]; exact hne)]
            exact hgrid2
          · rw [headD_position_moveAndResolve _ _ _ (by rw [hGs]; exact hne)]
            exact hgrid2
  split
  · exact hbody _ rfl rfl
  · exact hbody _ rfl rfl

/-- Witness for C8 at the fresh game state. -/
theorem C8_wrap_modulo_witness :
    newHeadPos? Game.new =
      some ((nextPos (Game.new.snake.body.headD dSeg).position Game.new.snake.direction).1 % WIDTH,
            (nextPos (Game.new.snake.body.headD dSeg).position Game.new.snake.direction).2 % HEIGHT) ∧
    inGrid ((nextPos (Game.new.snake.body.headD dSeg).position Game.new.snake.direction).1 % WIDTH,
            (nextPos (Game.new.snake.body.headD dSeg).position Game.new.snake.direction).2 % HEIGHT) ∧
    inGrid (((stepCore Game.new (fun _ => (0, 0))).snake.body.headD dSeg).position) :=
  C8_wrap_modulo Game.new (fun _ => (0, 0)) (by decide) (by decide) (by decide)

/-- Tail-count change of the move-and-resolve stage: it is unchanged except
when a RustyScrap is resolved with the tail counter below the cap, where it
grows by exactly one. -/
theorem tailCount_moveAndResolve (g : Game) (np : Int × Int) (ate : Option FoodType)
    (hne : g.snake.body ≠ [])
    (hh : (g.snake.body.headD dSeg).segment_type = SegmentType.Head)
    (hlink : g.tail_length = tailCount g.snake.body) :
    tailCount (moveAndResolve g np ate).snake.body = tailCount g.snake.body ∨
    (tailCount (moveAndResolve g np ate).snake.body = tailCount g.snake.body + 1 ∧
     tailCount g.snake.body < 3 ∧ ate = some FoodType.RustyScrap) := by
  obtain ⟨hBne, hBhead, hBkinds⟩ := body_after_move g.snake.body np hne hh
  have hBcount : tailCount (assertHead (shiftBody g.snake.body np)) = tailCount g.snake.body := by
    unfold tailCount
    exact countP_kindIs_congr _ _ _ hBkinds
  have hBheadK : ((assertHead (shiftBody g.snake.body np)).headD dSeg).segment_type
      = SegmentType.Head := by rw [hBhead]
  unfold moveAndResolve
  cases ate with
  | none => left; exact hBcount
  | some ft =>
      cases ft with
      | RustyScrap =>
          unfold eatRustyScrap
          dsimp only
          split
          · next hlt =>
              right
              refine ⟨?_, by omega, rfl⟩
              show tailCount ((assertHead (shiftBody g.snake.body np)) ++ [_])
                = tailCount g.snake.body + 1
              unfold tailCount
              rw [List.countP_append]
              have h1 : List.countP (kindIs SegmentType.Tail)
                  [{ position := ((assertHead (shiftBody g.snake.body np)).getLastD dSeg).position
                   , segment_type := SegmentType.Tail }] = 1 := by
                simp [kindIs, List.countP_cons]
              rw [h1]
              unfold tailCount at hBcount
              omega
          · left
            show tailCount (insertAt _ 1 (assertHead (shiftBody g.snake.body np)))
              = tailCount g.snake.body
            unfold tailCount
            rw [countP_insertAt_false _ _ _ _ (by simp [kindIs])]
            exact hBcount
      | ShinyMetal =>
          left
          unfold eatShinyMetal
          dsimp only
          split
          · exact hBcount
          · split
            · next i hfi =>
                have hki : ((assertHead (shiftBody g.snake.body np)).getD i dSeg).segment_type
                    = SegmentType.EmptyStomach := by
                  have := firstIdx_getD (kindIs SegmentType.EmptyStomach) dSeg _ i hfi
                  simpa [kindIs] using this
                show tailCount (setKindAt SegmentType.FullStomach i _) = tailCount g.snake.body
                unfold tailCount
                rw [countP_setKindAt _ _ _ _ (fun s => rfl) (by simp only [kindIs, hki]; rfl)]
                exact hBcount
            · exact hBcount
      | Water =>
          left
          unfold eatWater
          dsimp only
          split
          · next i hfi =>
              have hki : ((assertHead (shiftBody g.snake.body np)).getD i dSeg).segment_type
                  = SegmentType.FullStomach := by
                have := firstIdx_getD (kindIs SegmentType.FullStomach) dSeg _ i hfi
                simpa [kindIs] using this
              have hset : tailCount (setKindAt SegmentType.EmptyStomach i
                  (assertHead (shiftBody g.snake.body np))) = tailCount g.snake.body := by
                unfold tailCount
                rw [countP_setKindAt _ _ _ _ (fun s => rfl) (by simp only [kindIs, hki]; rfl)]
                exact hBcount
              split
              · show tailCount (applyN _ 5 _) = tailCount g.snake.body
                unfold tailCount
                rw [countP_applyN_insertAt _ _ _ (by simp [kindIs])]
                exact hset
              · exact hset
          · exact hBcount

/-- Tail-count change of the post-seed step, tied to the food it consumes. -/
theorem tailCount_stepAfterSeed (g : Game) (regen : FoodType → Int × Int)
    (hne : g.snake.body ≠ [])
    (hh : (g.snake.body.headD dSeg).segment_type = SegmentType.Head)
    (hlink : g.tail_length = tailCount g.snake.body) :
    tailCount (stepAfterSeed g regen).snake.body = tailCount g.snake.body ∨
    (tailCount (stepAfterSeed g regen).snake.body = tailCount g.snake.body + 1 ∧
     tailCount g.snake.body < 3 ∧ consumedAfterSeed g = some FoodType.RustyScrap) := by
  unfold stepAfterSeed consumedAfterSeed
  cases hnp : newHeadPos? g with
  | none => left; rfl
  | some np =>
      dsimp only
      cases hcol : g.snake.body.any (fun s => decide (s.position = np)) with
      | true => left; simp
      | false =>
          simp only [Bool.false_eq_true, if_false]
          cases hidx : firstIdx (fun f => decide (f.position = np)) g.foods with
          | none =>
              rcases tailCount_moveAndResolve g np none hne hh hlink with h | h
              · left; exact h
              · exact absurd h.2.2 (by simp)
          | some i =>
              dsimp only
              rcases tailCount_moveAndResolve
                  { g with foods := g.foods.set i { position := regen ((g.foods.getD i dFood).food_type), food_type := (g.foods.getD i dFood).food_type } }
                  np (some ((g.foods.getD i dFood).food_type)) hne hh hlink with h | h
              · left; exact h
              · right
                refine ⟨h.1, h.2.1, ?_⟩
                have := h.2.2
                injection this with this2
                rw [this2]

/-- Tail-count change of one full `Game::update` tick. -/
theorem tailCount_update (g : Game) (regen : FoodType → Int × Int) (hInv : Inv g) :
    tailCount (Game.update g regen).snake.body = tailCount g.snake.body ∨
    (tailCount (Game.update g regen).snake.body = tailCount g.snake.body + 1 ∧
     tailCount g.snake.body < 3 ∧ consumedFood g regen = some FoodType.RustyScrap) := by
  obtain ⟨hne, hh, hlink, _, _, _, _, _⟩ := hInv
  unfold Game.update consumedFood
  dsimp only
  split
  · left; rfl
  · unfold stepCore
    split
    · next hfe =>
        exact tailCount_stepAfterSeed _ regen hne hh hlink
    · exact tailCount_stepAfterSeed _ regen hne hh hlink

/-- C9: in every reachable state at most 3 segments have kind `Tail`; one
`Game::update` tick either leaves the Tail count unchanged or increases it by
exactly 1, and the latter happens only when the tick consumes a RustyScrap
with the Tail count still below 3; a direction key never changes it. -/
theorem C9_tail_cap (g : Game) (regen : FoodType → Int × Int) (d : Direction)
    (h : Reachable g) :
    tailCount g.snake.body ≤ 3 ∧
    (tailCount (Game.update g regen).snake.body = tailCount g.snake.body ∨
      (tailCount (Game.update g regen).snake.body = tailCount g.snake.body + 1 ∧
       tailCount g.snake.body < 3 ∧ consumedFood g regen = some FoodType.RustyScrap)) ∧
    tailCount (onDirKey g d regen).snake.body = tailCount g.snake.body := by
  have hi := inv_reachable g h
  refine ⟨?_, tailCount_update g regen hi, ?_⟩
  · have h1 := hi.2.2.1
    have h2 := hi.2.2.2.1
    omega
  · rw [onDirKey_body]

/-- Witness for C9 at the fresh game state. -/
theorem C9_tail_cap_witness :
    tailCount Game.new.snake.body ≤ 3 ∧
    (tailCount (Game.update Game.new (fun _ => (0, 0))).snake.body
        = tailCount Game.new.snake.body ∨
      (tailCount (Game.update Game.new (fun _ => (0, 0))).snake.body
          = tailCount Game.new.snake.body + 1 ∧
       tailCount Game.new.snake.body < 3 ∧
       consumedFood Game.new (fun _ => (0, 0)) = some FoodType.RustyScrap)) ∧
    tailCount (onDirKey Game.new Direction.Up (fun _ => (0, 0))).snake.body
      = tailCount Game.new.snake.body :=
  C9_tail_cap Game.new (fun _ => (0, 0)) Direction.Up Reachable.new

/-- C10: in every reachable state, a body with a `FullStomach` segment also
has a `Tail` segment, so the Water effect's search for the first Tail
succeeds (`firstIdx` is `some`) and the `unwrap` panic branch is never
reached: no reachable state is crashed and no update tick crashes it. -/
theorem C10_fullStomach_has_tail (g : Game) (regen : FoodType → Int × Int)
    (h : Reachable g)
    (hfull : g.snake.body.any (kindIs SegmentType.FullStomach) = true) :
    (firstIdx (kindIs SegmentType.Tail) g.snake.body).isSome = true ∧
    g.crashed = false ∧
    (Game.update g regen).crashed = false := by
  have hi := inv_reachable g h
  have htc : tailCount g.snake.body = 3 := hi.2.2.2.2.1 (Or.inr hfull)
  refine ⟨?_, hi.2.2.2.2.2.2.2, (inv_update g regen hi).2.2.2.2.2.2.2⟩
  apply firstIdx_isSome_of_countP
  unfold tailCount at htc
  omega

/-- Witness for C10 at the reachable state `g75`, which carries a FullStomach
segment (body `[Head, FullStomach, Tail, Tail, Tail]`). -/
theorem C10_fullStomach_has_tail_witness :
    (firstIdx (kindIs SegmentType.Tail) g75.snake.body).isSome = true ∧
    g75.crashed = false ∧
    (Game.update g75 (fun _ => (0, 0))).crashed = false :=
  C10_fullStomach_has_tail g75 (fun _ => (0, 0)) reach_g75 (by decide)

/-- C4: a step that eats Water while no segment has kind `FullStomach`
leaves body length, every segment kind, and the score unchanged, and does not
end (or crash) the game.  (Positions still shift: the claim speaks only of
length, score and kinds.) -/
theorem C4_water_noop (g : Game) (regen : FoodType → Int × Int) (np : Int × Int) (i : Nat)
    (hne : g.snake.body ≠ [])
    (hh : (g.snake.body.headD dSeg).segment_type = SegmentType.Head)
    (hgo : g.game_over = false)
    (hf : g.foods.isEmpty = false)
    (hnp : newHeadPos? g = some np)
    (hcol : g.snake.body.any (fun s => decide (s.position = np)) = false)
    (hidx : firstIdx (fun f => decide (f.position = np)) g.foods = some i)
    (hft : (g.foods.getD i dFood).food_type = FoodType.Water)
    (hnofull : ∀ s ∈ g.snake.body, s.segment_type ≠ SegmentType.FullStomach) :
    (stepCore g regen).snake.body.length = g.snake.body.length ∧
    kindsOf (stepCore g regen).snake.body = kindsOf g.snake.body ∧
    (stepCore g regen).score = g.score ∧
    (stepCore g regen).game_over = false ∧
    (stepCore g regen).crashed = g.crashed := by
  obtain ⟨hBne, hBhead, hBkinds⟩ := body_after_move g.snake.body np hne hh
  have hfiB : firstIdx (kindIs SegmentType.FullStomach)
      (assertHead (shiftBody g.snake.body np)) = none := by
    rw [firstIdx_kindIs_congr _ _ _ hBkinds]
    apply firstIdx_eq_none_of_all
    intro s hs
    simp only [kindIs, decide_eq_false_iff_not]
    exact hnofull s hs
  have e1 : stepCore g regen = stepAfterSeed g regen := stepCore_of_foods_nonempty g regen hf
  have e2 := stepAfterSeed_eats g regen np i hnp hcol hidx
  rw [hft] at e2
  rw [e1, e2]
  unfold moveAndResolve
  dsimp only
  unfold eatWater
  dsimp only
  rw [hfiB]
  refine ⟨?_, hBkinds, rfl, hgo, rfl⟩
  rw [length_assertHead, length_shiftBody]

/-- Witness for C4: a Head-plus-three-Tail snake (no stomach segments) at
(5,5) heading right onto Water at (6,5). -/
theorem C4_water_noop_witness :
    (let g : Game :=
      { snake := { body := [{ position := ((5 : Int), (5 : Int)), segment_type := SegmentType.Head },
                            { position := ((4 : Int), (5 : Int)), segment_type := SegmentType.Tail },
                            { position := ((3 : Int), (5 : Int)), segment_type := SegmentType.Tail },
                            { position := ((2 : Int), (5 : Int)), segment_type := SegmentType.Tail }]
                 , direction := Direction.Right }
      , foods := [{ position := ((6 : Int), (5 : Int)), food_type := FoodType.Water }]
      , score := 7, game_over := false, game_started := true, frame_count := 14
      , wrap_around := true, tail_length := 3, crashed := false }
    (stepCore g (fun _ => (0, 0))).snake.body.length = g.snake.body.length ∧
    kindsOf (stepCore g (fun _ => (0, 0))).snake.body = kindsOf g.snake.body ∧
    (stepCore g (fun _ => (0, 0))).score = g.score ∧
    (stepCore g (fun _ => (0, 0))).game_over = false ∧
    (stepCore g (fun _ => (0, 0))).crashed = g.crashed) := by
  exact C4_water_noop _ _ ((6 : Int), (5 : Int)) 0 (by decide) (by decide) (by decide)
    (by decide) (by decide) (by decide) (by decide) (by decide) (by decide)

/-- C2: a step that eats ShinyMetal ends the game exactly when the body is
shorter than 5 (the spec's StomachUnderflow) or has no `EmptyStomach`
segment (the spec's StomachOverflow); otherwise the first `EmptyStomach`
segment (head-to-tail order, index `j`) becomes `FullStomach` for exactly 2
points with no change in body length.  The model's `game_over` flag stands
for both spec `GameOver` reasons: the code has a single flag. -/
theorem C2_shinyMetal (g : Game) (regen : FoodType → Int × Int) (np : Int × Int) (i j : Nat)
    (hne : g.snake.body ≠ [])
    (hh : (g.snake.body.headD dSeg).segment_type = SegmentType.Head)
    (hgo : g.game_over = false)
    (hf : g.foods.isEmpty = false)
    (hnp : newHeadPos? g = some np)
    (hcol : g.snake.body.any (fun s => decide (s.position = np)) = false)
    (hidx : firstIdx (fun f => decide (f.position = np)) g.foods = some i)
    (hft : (g.foods.getD i dFood).food_type = FoodType.ShinyMetal) :
    ((stepCore g regen).game_over = true ↔
      (g.snake.body.length < 5 ∨
       firstIdx (kindIs SegmentType.EmptyStomach) g.snake.body = none)) ∧
    (¬ g.snake.body.length < 5 →
      firstIdx (kindIs SegmentType.EmptyStomach) g.snake.body = some j →
      (stepCore g regen).score = g.score + 2 ∧
      (stepCore g regen).snake.body.length = g.snake.body.length ∧
      kindsOf (stepCore g regen).snake.body
        = (kindsOf g.snake.body).set j SegmentType.FullStomach ∧
      (stepCore g regen).game_over = false) ∧
    (g.snake.body.length < 5 →
      (stepCore g regen).game_over = true ∧
      (stepCore g regen).score = g.score ∧
      (stepCore g regen).snake.body.length = g.snake.body.length) ∧
    (¬ g.snake.body.length < 5 →
      firstIdx (kindIs SegmentType.EmptyStomach) g.snake.body = none →
      (stepCore g regen).game_over = true ∧
      (stepCore g regen).score = g.score ∧
      (stepCore g regen).snake.body.length = g.snake.body.length) := by
  obtain ⟨hBne, hBhead, hBkinds⟩ := body_after_move g.snake.body np hne hh
  have hlenB : (assertHead (shiftBody g.snake.body np)).length = g.snake.body.length := by
    rw [length_assertHead, length_shiftBody]
  have hfiB : firstIdx (kindIs SegmentType.EmptyStomach)
      (assertHead (shiftBody g.snake.body np))
      = firstIdx (kindIs SegmentType.EmptyStomach) g.snake.body :=
    firstIdx_kindIs_congr _ _ _ hBkinds
  have e1 : stepCore g regen = stepAfterSeed g regen := stepCore_of_foods_nonempty g regen hf
  have e2 := stepAfterSeed_eats g regen np i hnp hcol hidx
  rw [hft] at e2
  rw [e1, e2]
  unfold moveAndResolve
  dsimp only
  unfold eatShinyMetal
  dsimp only
  rw [hlenB, hfiB]
  by_cases h5 : g.snake.body.length < 5
  · simp only [if_pos h5]
    constructor
    · simp [h5]
    constructor
    · intro h5n _
      exact absurd h5 h5n
    constructor
    · intro _
      exact ⟨by trivial, by trivial, hlenB⟩
    · intro h5n _
      exact absurd h5 h5n
  · simp only [if_neg h5]
    cases hE : firstIdx (kindIs SegmentType.EmptyStomach) g.snake.body with
    | some m =>
        dsimp only
        constructor
        · simp [h5, hgo]
        constructor
        · intro _ hEj
          injection hEj with hmj
          subst hmj
          refine ⟨rfl, ?_, ?_, hgo⟩
          · show (setKindAt SegmentType.FullStomach m _).length = g.snake.body.length
            rw [length_setKindAt, hlenB]
          · show kindsOf (setKindAt SegmentType.FullStomach m _)
              = (kindsOf g.snake.body).set m SegmentType.FullStomach
            rw [kindsOf_setKindAt, hBkinds]
        constructor
        · intro h5y
          exact absurd h5y h5
        · intro _ hnone
          cases hnone
    | none =>
        dsimp only
        constructor
        · simp
        constructor
        · intro _ hEj
          cases hEj
        constructor
        · intro h5y
          exact absurd h5y h5
        · intro _ _
          exact ⟨by trivial, by trivial, hlenB⟩

/-- Witness for C2: a length-5 body with one EmptyStomach at index 1 eats
the ShinyMetal at (6,5): it becomes FullStomach and the score goes 7 → 9. -/
theorem C2_shinyMetal_witness :
    (let g : Game :=
      { snake := { body := [{ position := ((5 : Int), (5 : Int)), segment_type := SegmentType.Head },
                            { position := ((5 : Int), (5 : Int)), segment_type := SegmentType.EmptyStomach },
                            { position := ((4 : Int), (5 : Int)), segment_type := SegmentType.Tail },
                            { position := ((3 : Int), (5 : Int)), segment_type := SegmentType.Tail },
                            { position := ((2 : Int), (5 : Int)), segment_type := SegmentType.Tail }]
                 , direction := Direction.Right }
      , foods := [{ position := ((6 : Int), (5 : Int)), food_type := FoodType.ShinyMetal }]
      , score := 7, game_over := false, game_started := true, frame_count := 14
      , wrap_around := true, tail_length := 3, crashed := false }
    ((stepCore g (fun _ => (0, 0))).game_over = true ↔
      (g.snake.body.length < 5 ∨
       firstIdx (kindIs SegmentType.EmptyStomach) g.snake.body = none)) ∧
    (¬ g.snake.body.length < 5 →
      firstIdx (kindIs SegmentType.EmptyStomach) g.snake.body = some 1 →
      (stepCore g (fun _ => (0, 0))).score = g.score + 2 ∧
      (stepCore g (fun _ => (0, 0))).snake.body.length = g.snake.body.length ∧
      kindsOf (stepCore g (fun _ => (0, 0))).snake.body
        = (kindsOf g.snake.body).set 1 SegmentType.FullStomach ∧
      (stepCore g (fun _ => (0, 0))).game_over = false) ∧
    (g.snake.body.length < 5 →
      (stepCore g (fun _ => (0, 0))).game_over = true ∧
      (stepCore g (fun _ => (0, 0))).score = g.score ∧
      (stepCore g (fun _ => (0, 0))).snake.body.length = g.snake.body.length) ∧
    (¬ g.snake.body.length < 5 →
      firstIdx (kindIs SegmentType.EmptyStomach) g.snake.body = none →
      (stepCore g (fun _ => (0, 0))).game_over = true ∧
      (stepCore g (fun _ => (0, 0))).score = g.score ∧
      (stepCore g (fun _ => (0, 0))).snake.body.length = g.snake.body.length)) := by
  exact C2_shinyMetal _ _ ((6 : Int), (5 : Int)) 0 1 (by decide) (by decide) (by decide)
    (by decide) (by decide) (by decide) (by decide) (by decide)

/-- C1, counterexample: the spec says the EmptyStomach segment inserted at
index 1 takes the position the Head held before the shift.  In the reachable
state `g59` (head at (18,10), three Tail segments, RustyScrap at (19,10)) the
next tick eats the RustyScrap at the cap, and the inserted segment sits at
(19,10) — the Head's NEW position — not at the pre-shift head position
(18,10). -/
theorem C1_cex_inserted_at_new_head_position :
    Reachable g59 ∧
    (consumedFood g59 oracle4 = some FoodType.RustyScrap ∧
     tailCount g59.snake.body = 3 ∧
     ((Game.update g59 oracle4).snake.body.getD 1 dSeg).segment_type
        = SegmentType.EmptyStomach ∧
     ((Game.update g59 oracle4).snake.body.getD 1 dSeg).position = ((19 : Int), (10 : Int)) ∧
     (g59.snake.body.getD 0 dSeg).position = ((18 : Int), (10 : Int)) ∧
     ¬ ((Game.update g59 oracle4).snake.body.getD 1 dSeg).position
        = (g59.snake.body.getD 0 dSeg).position) :=
  ⟨reach_g59, by decide⟩

/-- C1 (amended): a step that eats RustyScrap while the Tail count (and its
counter) is already 3 inserts exactly one EmptyStomach segment at index 1,
and that segment takes the Head's NEW position — the cell of the eaten food,
which `body[0]` holds after the shift — not the position the Head occupied
before the shift; body length grows by 1 and score by 1. -/
theorem C1_rustyScrap_at_cap (g : Game) (regen : FoodType → Int × Int) (np : Int × Int)
    (i : Nat)
    (hne : g.snake.body ≠ [])
    (hh : (g.snake.body.headD dSeg).segment_type = SegmentType.Head)
    (hf : g.foods.isEmpty = false)
    (hnp : newHeadPos? g = some np)
    (hcol : g.snake.body.any (fun s => decide (s.position = np)) = false)
    (hidx : firstIdx (fun f => decide (f.position = np)) g.foods = some i)
    (hft : (g.foods.getD i dFood).food_type = FoodType.RustyScrap)
    (htc : tailCount g.snake.body = 3)
    (hlink : g.tail_length = tailCount g.snake.body) :
    (stepCore g regen).score = g.score + 1 ∧
    (stepCore g regen).snake.body.length = g.snake.body.length + 1 ∧
    kindsOf (stepCore g regen).snake.body
      = SegmentType.Head :: SegmentType.EmptyStomach :: (kindsOf g.snake.body).tail ∧
    (stepCore g regen).snake.body.getD 1 dSeg
      = { position := np, segment_type := SegmentType.EmptyStomach } ∧
    ((stepCore g regen).snake.body.getD 0 dSeg).position = np := by
  obtain ⟨hBne, hBhead, hBkinds⟩ := body_after_move g.snake.body np hne hh
  have hlenB : (assertHead (shiftBody g.snake.body np)).length = g.snake.body.length := by
    rw [length_assertHead, length_shiftBody]
  have hnot : ¬ g.tail_length < 3 := by omega
  have e1 : stepCore g regen = stepAfterSeed g regen := stepCore_of_foods_nonempty g regen hf
  have e2 := stepAfterSeed_eats g regen np i hnp hcol hidx
  rw [hft] at e2
  rw [e1, e2]
  unfold moveAndResolve
  dsimp only
  unfold eatRustyScrap
  dsimp only
  simp only [if_neg hnot]
  cases hB : assertHead (shiftBody g.snake.body np) with
  | nil => exact absurd hB hBne
  | cons b0 rest =>
      rw [hB] at hBhead hBkinds hlenB
      simp only [List.headD_cons] at hBhead
      subst hBhead
      simp only [List.length_cons] at hlenB
      refine ⟨by trivial, ?_, ?_, by trivial, by trivial⟩
      · simp only [insertAt, List.length_cons]
        omega
      · simp only [insertAt, kindsOf, List.map_cons]
        simp only [kindsOf, List.map_cons] at hBkinds
        rw [← hBkinds, List.tail_cons]

/-- Witness for C1 (amended): a Head-plus-three-Tail snake at (5,5) heading
right onto a RustyScrap at (6,5): the inserted EmptyStomach at index 1 sits
at (6,5), the head's new position. -/
theorem C1_rustyScrap_at_cap_witness :
    (let g : Game :=
      { snake := { body := [{ position := ((5 : Int), (5 : Int)), segment_type := SegmentType.Head },
                            { position := ((4 : Int), (5 : Int)), segment_type := SegmentType.Tail },
                            { position := ((3 : Int), (5 : Int)), segment_type := SegmentType.Tail },
                            { position := ((2 : Int), (5 : Int)), segment_type := SegmentType.Tail }]
                 , direction := Direction.Right }
      , foods := [{ position := ((6 : Int), (5 : Int)), food_type := FoodType.RustyScrap }]
      , score := 3, game_over := false, game_started := true, frame_count := 14
      , wrap_around := true, tail_length := 3, crashed := false }
    (stepCore g (fun _ => (0, 0))).score = g.score + 1 ∧
    (stepCore g (fun _ => (0, 0))).snake.body.length = g.snake.body.length + 1 ∧
    kindsOf (stepCore g (fun _ => (0, 0))).snake.body
      = SegmentType.Head :: SegmentType.EmptyStomach :: (kindsOf g.snake.body).tail ∧
    (stepCore g (fun _ => (0, 0))).snake.body.getD 1 dSeg
      = { position := ((6 : Int), (5 : Int)), segment_type := SegmentType.EmptyStomach } ∧
    ((stepCore g (fun _ => (0, 0))).snake.body.getD 0 dSeg).position
      = ((6 : Int), (5 : Int))) := by
  exact C1_rustyScrap_at_cap _ _ ((6 : Int), (5 : Int)) 0 (by decide) (by decide) (by decide)
    (by decide) (by decide) (by decide) (by decide) (by decide) (by decide)

theorem getD_append_right_of_len {α : Type} (d : α) (l₁ l₂ : List α) (j k : Nat)
    (h : l₁.length = j) : (l₁ ++ l₂).getD (j + k) d = l₂.getD k d := by
  subst h
  exact getD_append_right d l₁ l₂ k

theorem getD_append_at_len {α : Type} (d : α) (l₁ l₂ : List α) (j : Nat)
    (h : l₁.length = j) : (l₁ ++ l₂).getD j d = l₂.getD 0 d := by
  subst h
  have h0 := getD_append_right d l₁ l₂ 0
  simpa using h0

/-- C3: a step that eats Water while some segment has kind `FullStomach`
(first such index `i`, first Tail index `j`) converts that segment to
`EmptyStomach`, awards exactly 5 points, and inserts 5 `EmptyStomach`
segments immediately before the first Tail segment, all at that Tail
segment's (post-shift) position; body length grows by exactly 5 and the game
neither ends nor crashes.  In the conclusion the former first Tail sits at
index `j + 5`. -/
theorem C3_water_effect (g : Game) (regen : FoodType → Int × Int) (np : Int × Int)
    (fi i j : Nat)
    (hne : g.snake.body ≠ [])
    (hh : (g.snake.body.headD dSeg).segment_type = SegmentType.Head)
    (hf : g.foods.isEmpty = false)
    (hnp : newHeadPos? g = some np)
    (hcol : g.snake.body.any (fun s => decide (s.position = np)) = false)
    (hidx : firstIdx (fun f => decide (f.position = np)) g.foods = some fi)
    (hft : (g.foods.getD fi dFood).food_type = FoodType.Water)
    (hfull : firstIdx (kindIs SegmentType.FullStomach) g.snake.body = some i)
    (htail : firstIdx (kindIs SegmentType.Tail) g.snake.body = some j) :
    (stepCore g regen).score = g.score + 5 ∧
    (stepCore g regen).snake.body.length = g.snake.body.length + 5 ∧
    kindsOf (stepCore g regen).snake.body
      = ((kindsOf g.snake.body).set i SegmentType.EmptyStomach).take j ++
        List.replicate 5 SegmentType.EmptyStomach ++
        ((kindsOf g.snake.body).set i SegmentType.EmptyStomach).drop j ∧
    (∀ k, k < 5 →
      ((stepCore g regen).snake.body.getD (j + k) dSeg).segment_type
        = SegmentType.EmptyStomach ∧
      ((stepCore g regen).snake.body.getD (j + k) dSeg).position
        = ((stepCore g regen).snake.body.getD (j + 5) dSeg).position) ∧
    (stepCore g regen).game_over = g.game_over ∧
    (stepCore g regen).crashed = g.crashed := by
  obtain ⟨hBne, hBhead, hBkinds⟩ := body_after_move g.snake.body np hne hh
  have hfullB : firstIdx (kindIs SegmentType.FullStomach)
      (assertHead (shiftBody g.snake.body np)) = some i := by
    rw [firstIdx_kindIs_congr _ _ _ hBkinds]
    exact hfull
  have hkiB : ((assertHead (shiftBody g.snake.body np)).getD i dSeg).segment_type
      = SegmentType.FullStomach := by
    have := firstIdx_getD (kindIs SegmentType.FullStomach) dSeg _ i hfullB
    simpa [kindIs] using this
  have htailL : firstIdx (kindIs SegmentType.Tail)
      (setKindAt SegmentType.EmptyStomach i (assertHead (shiftBody g.snake.body np)))
      = some j := by
    rw [firstIdx_setKindAt_other SegmentType.Tail SegmentType.EmptyStomach i _ (by decide)
      (by simp only [hkiB]; decide)]
    rw [firstIdx_kindIs_congr _ _ _ hBkinds]
    exact htail
  have hjlt : j < (setKindAt SegmentType.EmptyStomach i
      (assertHead (shiftBody g.snake.body np))).length :=
    firstIdx_lt_length _ _ j htailL
  have hLlen : (setKindAt SegmentType.EmptyStomach i
      (assertHead (shiftBody g.snake.body np))).length = g.snake.body.length := by
    rw [length_setKindAt, length_assertHead, length_shiftBody]
  have htake : ((setKindAt SegmentType.EmptyStomach i
      (assertHead (shiftBody g.snake.body np))).take j).length = j := by
    simp only [List.length_take]
    omega
  have hkL : kindsOf (setKindAt SegmentType.EmptyStomach i
      (assertHead (shiftBody g.snake.body np)))
      = (kindsOf g.snake.body).set i SegmentType.EmptyStomach := by
    rw [kindsOf_setKindAt, hBkinds]
  have e1 : stepCore g regen = stepAfterSeed g regen := stepCore_of_foods_nonempty g regen hf
  have e2 := stepAfterSeed_eats g regen np fi hnp hcol hidx
  rw [hft] at e2
  rw [e1, e2]
  unfold moveAndResolve
  dsimp only
  unfold eatWater
  dsimp only
  rw [hfullB]
  dsimp only
  rw [htailL]
  dsimp only
  rw [applyN_insertAt _ j 5 _ (by omega)]
  refine ⟨by trivial, ?_, ?_, ?_, by trivial, by trivial⟩
  · simp only [List.length_append, List.length_take, List.length_drop, List.length_replicate]
    omega
  · simp only [kindsOf, List.map_append, List.map_take, List.map_drop, List.map_replicate]
    simp only [kindsOf] at hkL
    rw [hkL]
  · intro k hk
    rw [List.append_assoc]
    rw [getD_append_right_of_len dSeg _ _ j k htake, getD_append_right_of_len dSeg _ _ j 5 htake]
    rw [getD_append_at_len dSeg _ _ 5 (by simp)]
    rw [getD_append_left dSeg _ _ k (by simp [hk]), getD_replicate _ _ _ _ hk]
    rw [getD_drop_zero]
    exact ⟨rfl, rfl⟩

/-- Witness for C3: a body `[Head, FullStomach, Tail, Tail, Tail]` at (5,5)
heading right onto Water at (6,5). -/
theorem C3_water_effect_witness :
    (let g : Game :=
      { snake := { body := [{ position := ((5 : Int), (5 : Int)), segment_type := SegmentType.Head },
                            { position := ((5 : Int), (5 : Int)), segment_type := SegmentType.FullStomach },
                            { position := ((4 : Int), (5 : Int)), segment_type := SegmentType.Tail },
                            { position := ((3 : Int), (5 : Int)), segment_type := SegmentType.Tail },
                            { position := ((2 : Int), (5 : Int)), segment_type := SegmentType.Tail }]
                 , direction := Direction.Right }
      , foods := [{ position := ((6 : Int), (5 : Int)), food_type := FoodType.Water }]
      , score := 9, game_over := false, game_started := true, frame_count := 14
      , wrap_around := true, tail_length := 3, crashed := false }
    (stepCore g (fun _ => (0, 0))).score = g.score + 5 ∧
    (stepCore g (fun _ => (0, 0))).snake.body.length = g.snake.body.length + 5 ∧
    kindsOf (stepCore g (fun _ => (0, 0))).snake.body
      = ((kindsOf g.snake.body).set 1 SegmentType.EmptyStomach).take 2 ++
        List.replicate 5 SegmentType.EmptyStomach ++
        ((kindsOf g.snake.body).set 1 SegmentType.EmptyStomach).drop 2 ∧
    (∀ k, k < 5 →
      ((stepCore g (fun _ => (0, 0))).snake.body.getD (2 + k) dSeg).segment_type
        = SegmentType.EmptyStomach ∧
      ((stepCore g (fun _ => (0, 0))).snake.body.getD (2 + k) dSeg).position
        = ((stepCore g (fun _ => (0, 0))).snake.body.getD (2 + 5) dSeg).position) ∧
    (stepCore g (fun _ => (0, 0))).game_over = g.game_over ∧
    (stepCore g (fun _ => (0, 0))).crashed = g.crashed) := by
  exact C3_water_effect _ _ ((6 : Int), (5 : Int)) 0 1 2 (by decide) (by decide) (by decide)
    (by decide) (by decide) (by decide) (by decide) (by decide) (by decide)

/-! ### C5: the `generate_food` retry loop on a full grid -/

/-- A body covering every cell of the 30×20 grid: segment `n` sits at
`(n mod 30, n div 30)` for `n < 600`.  The body can far exceed 600 segments
in a long game (growth is unbounded), and segments may overlap, so a state
whose segments cover the whole grid is a legitimate game configuration. -/
def fullBody : List Segment :=
  (List.range 600).map
    (fun n => { position := ((n % 30 : Nat), (n / 30 : Nat)), segment_type := SegmentType.Tail })

/-- A game state whose body covers the whole grid and with no food active. -/
def fullGame : Game :=
  { snake := { body := fullBody, direction := Direction.Right }
  , foods := []
  , score := 0
  , game_over := false
  , game_started := true
  , frame_count := 0
  , wrap_around := true
  , tail_length := 3
  , crashed := false }

theorem fullBody_covers (p : Int × Int) (hp : inGrid p) :
    fullBody.any (fun s => decide (s.position = p)) = true := by
  obtain ⟨px, py⟩ := p
  obtain ⟨h1, h2, h3, h4⟩ := hp
  unfold WIDTH at h2
  unfold HEIGHT at h4
  have h1x : 0 ≤ px := h1
  have h3y : 0 ≤ py := h3
  obtain ⟨x, rfl⟩ := Int.eq_ofNat_of_zero_le h1x
  obtain ⟨y, rfl⟩ := Int.eq_ofNat_of_zero_le h3y
  have h2x : ((x : Int), (y : Int)).1 < 30 := h2
  have h4y : ((x : Int), (y : Int)).2 < 20 := h4
  simp only at h2x h4y
  have hx : x < 30 := by exact_mod_cast h2x
  have hy : y < 20 := by exact_mod_cast h4y
  rw [List.any_eq_true]
  refine ⟨{ position := ((x : Int), (y : Int)), segment_type := SegmentType.Tail }, ?_, by simp⟩
  unfold fullBody
  rw [List.mem_map]
  refine ⟨30 * y + x, ?_, ?_⟩
  · rw [List.mem_range]
    omega
  · have hmod : (30 * y + x) % 30 = x := by omega
    have hdiv : (30 * y + x) / 30 = y := by omega
    rw [hmod, hdiv]

/-- C5 (code evidence of the bug): on a state whose segments cover every grid
cell, the `generate_food` retry loop never returns, for ANY number of
iterations and ANY stream of in-grid samples (and the source's `gen_range`
only produces in-grid samples).  The loop also has no error-reporting exit at
all, so the claimed "fatal configuration error after a bounded number of
retries" does not exist in the code: the claim describes the intended
behaviour, the code spins forever. -/
theorem C5_generate_food_never_returns (ft : FoodType) (rng : Nat → Int × Int)
    (hr : ∀ n, inGrid (rng n)) :
    ∀ fuel : Nat, generate_food_fuel fullGame ft rng fuel = none := by
  intro fuel
  induction fuel with
  | zero => rfl
  | succ fuel ih =>
      unfold generate_food_fuel
      dsimp only
      have hcov : fullGame.snake.body.any (fun s => decide (s.position = rng fuel)) = true :=
        fullBody_covers (rng fuel) (hr fuel)
      rw [hcov]
      simp only [Bool.not_true, Bool.false_and, Bool.false_eq_true, if_false]
      exact ih

/-- Witness for C5's theorem at the constant in-grid sampler and 9 observed
iterations. -/
theorem C5_generate_food_never_returns_witness :
    generate_food_fuel fullGame FoodType.RustyScrap (fun _ => ((0 : Int), (0 : Int))) 9
      = none :=
  C5_generate_food_never_returns FoodType.RustyScrap _ (fun _ => by decide) 9

end RustySnake
